import Mathlib

/-!
# pivroot: a two-phase namespace bootstrap (`main.go`)

A shallow embedding of `main.go`.  The program is a fixed sequence of calls
into the operating system and the Go libraries.  Each such call is recorded as
a `Call`; what the outside world answers is supplied by a `World`, whose
answers may depend on everything the process has done so far.  A Go function
becomes a `Proc α`: given the world and the calls made so far, it yields either
a returned value or a process exit, together with the extended list of calls.
-/

namespace Pivroot

/-! ## Library values used by the program -/

namespace os

/-- The three standard streams of a process (`os.Stdin`, `os.Stdout`, `os.Stderr`). -/
inductive File where
  | Stdin
  | Stdout
  | Stderr
  deriving DecidableEq, Repr

end os

namespace syscall

/-- Go's `syscall.SysProcIDMap`. -/
structure SysProcIDMap where
  ContainerID : Int
  HostID : Int
  Size : Int
  deriving DecidableEq, Repr

/-- The fields of Go's `syscall.SysProcAttr` that the program sets. -/
structure SysProcAttr where
  Cloneflags : Nat
  UidMappings : List SysProcIDMap
  GidMappings : List SysProcIDMap
  deriving DecidableEq, Repr

/-- Linux `CLONE_NEWNS`. -/
def CLONE_NEWNS : Nat := 0x00020000

/-- Linux `CLONE_NEWUSER`. -/
def CLONE_NEWUSER : Nat := 0x10000000

/-- Linux `CLONE_NEWPID`. -/
def CLONE_NEWPID : Nat := 0x20000000

end syscall

namespace exec

/-- The fields of Go's `exec.Cmd` that the program sets.  `Env = none` is Go's
nil slice (inherit the environment of the current process). -/
structure Cmd where
  Path : String
  Args : List String
  Env : Option (List String)
  Stdin : Option os.File
  Stdout : Option os.File
  Stderr : Option os.File
  SysProcAttr : Option syscall.SysProcAttr
  deriving DecidableEq, Repr

/-- Go's `exec.Command(name, arg...)`: argv is the name followed by the arguments,
everything else is unset.  `Path` keeps the name as given; resolving it through
`PATH` is part of running the command. -/
def Command (name : String) (arg : List String) : Cmd :=
  { Path := name, Args := name :: arg, Env := none,
    Stdin := none, Stdout := none, Stderr := none, SysProcAttr := none }

end exec

namespace reexec

/-- The `reexec.Command(args...)` of containers/storage on Linux: the current
binary (`/proc/self/exe`) with argv replaced by `args`. -/
def Command (args : List String) : exec.Cmd :=
  { Path := "/proc/self/exe", Args := args, Env := none,
    Stdin := none, Stdout := none, Stderr := none, SysProcAttr := none }

end reexec

/-! ## `filepath.Join` (Unix) -/

namespace filepath

/-- Split a path at every `/`. -/
def splitSep : List Char → List (List Char)
  | [] => [[]]
  | c :: cs =>
    match splitSep cs with
    | [] => if c = '/' then [[], []] else [[c]]
    | p :: ps => if c = '/' then [] :: p :: ps else (c :: p) :: ps

/-- One step of `Clean`: `out` holds the components kept so far, last one first. -/
def cleanStep (rooted : Bool) (out : List (List Char)) (comp : List Char) : List (List Char) :=
  if comp = [] ∨ comp = ['.'] then out
  else if comp = ['.', '.'] then
    match out with
    | [] => if rooted then [] else [comp]
    | top :: rest => if top = ['.', '.'] then comp :: out else rest
  else comp :: out

/-- Go's `filepath.Clean` on Unix: drop empty and `.` components, resolve `..`
lexically, keep a leading `/`, and return `.` for an empty result. -/
def Clean (path : String) : String :=
  let rooted := path.data.head? = some '/'
  let comps := ((splitSep path.data).foldl (cleanStep rooted) []).reverse
  let body := List.intercalate ['/'] comps
  if rooted then String.mk ('/' :: body)
  else if body = [] then "." else String.mk body

/-- Go's `filepath.Join` on Unix: the elements from the first non-empty one on are
joined with `/` and cleaned; the result is empty when all elements are. -/
def Join : List String → String
  | [] => ""
  | e :: rest =>
    if e = "" then Join rest
    else Clean (String.intercalate "/" (e :: rest))

end filepath

/-! ## Calls and the world -/

/-- A call that leaves the process: a system call, a child process that is run
to completion, or a write to a standard stream. -/
inductive Call where
  /-- Go `ioutil.TempDir(dir, pattern)` -/
  | TempDir (dir pattern : String)
  /-- Go `os.MkdirAll(path, perm)` -/
  | MkdirAll (path : String) (perm : Nat)
  /-- Go `os.RemoveAll(path)` -/
  | RemoveAll (path : String)
  /-- Go `cmd.Run()`: start the command and wait for it -/
  | Run (cmd : exec.Cmd)
  /-- Go `syscall.Mount(source, target, fstype, flags, data)` -/
  | Mount (source target fstype : String) (flags : Nat) (data : String)
  /-- Go `syscall.Chroot(path)` -/
  | Chroot (path : String)
  /-- Go `os.Chdir(dir)` -/
  | Chdir (dir : String)
  /-- Text written to a standard stream -/
  | Write (f : os.File) (s : String)
  deriving DecidableEq, Repr

/-- What the outside world answers.  Every answer may depend on the calls the
process has made so far. -/
structure World where
  /-- The name the process was started under, `os.Args[0]` -/
  Args0 : String
  /-- The error of a call (its `Error()` text), `none` when it succeeds -/
  err : List Call → Call → Option String
  /-- The directory `ioutil.TempDir` creates when it succeeds -/
  tempName : List Call → String
  /-- Go `os.Getenv` -/
  Getenv : List Call → String → String
  /-- Go `os.Environ` -/
  Environ : List Call → List String
  /-- Go `os.Geteuid` -/
  Geteuid : List Call → Int
  /-- Go `os.Getegid` -/
  Getegid : List Call → Int

/-- How a piece of Go code ends: it returns a value, or the process exits
(`os.Exit`) with a status. -/
inductive Outcome (α : Type) where
  | ret (a : α)
  | exit (code : Int)
  deriving DecidableEq, Repr

/-- A Go function with effects: from the world and the calls made so far to an
outcome and the calls made so far afterwards. -/
def Proc (α : Type) : Type := World → List Call → Outcome α × List Call

namespace Proc

/-- Return a value without any effect. -/
def pure {α : Type} (a : α) : Proc α := fun _ h => (Outcome.ret a, h)

/-- Sequencing: an exit in the first part ends the whole. -/
def bind {α β : Type} (p : Proc α) (k : α → Proc β) : Proc β := fun w h =>
  match p w h with
  | (Outcome.ret a, h1) => k a w h1
  | (Outcome.exit c, h1) => (Outcome.exit c, h1)

/-- A fallible call: record it and return the error the world answers. -/
def call (c : Call) : Proc (Option String) := fun w h => (Outcome.ret (w.err h c), h ++ [c])

/-- A call whose result the program ignores: record it. -/
def call_ (c : Call) : Proc Unit := fun _ h => (Outcome.ret (), h ++ [c])

/-- Go's `defer`: the deferred call runs when the body returns; `os.Exit` skips it. -/
def withDefer {α : Type} (deferred : Proc Unit) (body : Proc α) : Proc α := fun w h =>
  match body w h with
  | (Outcome.ret a, h1) =>
    match deferred w h1 with
    | (Outcome.ret _, h2) => (Outcome.ret a, h2)
    | (Outcome.exit c, h2) => (Outcome.exit c, h2)
  | (Outcome.exit c, h1) => (Outcome.exit c, h1)

end Proc

/-! ## Library calls as procedures -/

namespace os

/-- Go `os.Exit(code)`: the process ends here. -/
def Exit {α : Type} (code : Int) : Proc α := fun _ h => (Outcome.exit code, h)

/-- Go `os.MkdirAll(path, perm)`. -/
def MkdirAll (path : String) (perm : Nat) : Proc (Option String) :=
  Proc.call (Call.MkdirAll path perm)

/-- Go `os.RemoveAll(path)` used as a statement: its error is dropped. -/
def RemoveAll (path : String) : Proc Unit := Proc.call_ (Call.RemoveAll path)

/-- Go `os.Chdir(dir)`. -/
def Chdir (dir : String) : Proc (Option String) := Proc.call (Call.Chdir dir)

/-- Go `os.Getenv(key)`. -/
def Getenv (key : String) : Proc String := fun w h => (Outcome.ret (w.Getenv h key), h)

/-- Go `os.Environ()`. -/
def Environ : Proc (List String) := fun w h => (Outcome.ret (w.Environ h), h)

/-- Go `os.Geteuid()`. -/
def Geteuid : Proc Int := fun w h => (Outcome.ret (w.Geteuid h), h)

/-- Go `os.Getegid()`. -/
def Getegid : Proc Int := fun w h => (Outcome.ret (w.Getegid h), h)

end os

namespace ioutil

/-- Go `ioutil.TempDir(dir, pattern)`: the created directory and a nil error, or
an empty name and the error. -/
def TempDir (dir pattern : String) : Proc (String × Option String) := fun w h =>
  match w.err h (Call.TempDir dir pattern) with
  | some e => (Outcome.ret ("", some e), h ++ [Call.TempDir dir pattern])
  | none => (Outcome.ret (w.tempName h, none), h ++ [Call.TempDir dir pattern])

end ioutil

namespace syscall

/-- Go `syscall.Mount(source, target, fstype, flags, data)`. -/
def Mount (source target fstype : String) (flags : Nat) (data : String) : Proc (Option String) :=
  Proc.call (Call.Mount source target fstype flags data)

/-- Go `syscall.Chroot(path)`. -/
def Chroot (path : String) : Proc (Option String) := Proc.call (Call.Chroot path)

end syscall

namespace exec

/-- Go `cmd.Run()`: nil when the command ran and exited with status zero. -/
def Cmd.Run (cmd : Cmd) : Proc (Option String) := Proc.call (Call.Run cmd)

end exec

namespace fmt

/-- Go `fmt.Fprintln(f, a)` with one operand. -/
def Fprintln (f : os.File) (a : String) : Proc Unit := Proc.call_ (Call.Write f (a ++ "\n"))

/-- Go `fmt.Println(a...)`: the operands separated by spaces, then a newline, on
standard output. -/
def Println (a : List String) : Proc Unit :=
  Proc.call_ (Call.Write os.File.Stdout (String.intercalate " " a ++ "\n"))

/-- Go `fmt.Fprintf(f, ...)`, the format already applied. -/
def Fprintf (f : os.File) (formatted : String) : Proc Unit := Proc.call_ (Call.Write f formatted)

end fmt

/-! ## The program -/

/-- Go `createDir` (main.go 21-27). -/
def createDir (newRoot dir : String) : Proc (Option String) :=
  Proc.bind (os.MkdirAll (filepath.Join [newRoot, dir]) 0o755) fun err =>
  match err with
  | some e => Proc.pure (some ("failed to create " ++ dir ++ " directory: " ++ e))
  | none => Proc.pure none

/-- Go `copyFile` (main.go 29-35). -/
def copyFile (src dest : String) : Proc (Option String) :=
  Proc.bind (exec.Cmd.Run (exec.Command "cp" [src, dest])) fun err =>
  match err with
  | some e => Proc.pure (some ("failed to copy " ++ src ++ " to " ++ dest ++ ": " ++ e))
  | none => Proc.pure none

/-- The `for _, dir := range dirs` loop of `createMinimalRootFs` (main.go 46-50):
the first error ends the loop and is the function's result. -/
def createMinimalRootFs.loop (newRoot : String) : List String → Proc (Option String)
  | [] => Proc.pure none
  | dir :: rest =>
    Proc.bind (createDir newRoot dir) fun err =>
    match err with
    | some e => Proc.pure (some e)
    | none => createMinimalRootFs.loop newRoot rest

/-- The `dirs` slice of `createMinimalRootFs` (main.go 38-44). -/
def createMinimalRootFs.dirs : List String := ["bin", "cwd", "proc", "sys", "dev"]

/-- Go `createMinimalRootFs` (main.go 37-60). -/
def createMinimalRootFs (newRoot : String) : Proc (Option String) :=
  Proc.bind (createMinimalRootFs.loop newRoot createMinimalRootFs.dirs) fun err =>
  match err with
  | some e => Proc.pure (some e)
  | none =>
    Proc.bind (copyFile "/bin/busybox" (filepath.Join [newRoot, "bin/busybox"])) fun err =>
    match err with
    | some e => Proc.pure (some e)
    | none =>
      Proc.bind (exec.Cmd.Run (exec.Command "cp" ["-r", ".", filepath.Join [newRoot, "cwd"]]))
        fun err =>
      match err with
      | some e => Proc.pure (some ("failed to copy current directory to new root: " ++ e))
      | none => Proc.pure none

/-- Go `mountProc` (main.go 62-67). -/
def mountProc (newRoot : String) : Proc (Option String) :=
  Proc.bind (syscall.Mount "proc" (filepath.Join [newRoot, "proc"]) "proc" 0 "") fun err =>
  match err with
  | some e => Proc.pure (some ("error mounting /proc: " ++ e))
  | none => Proc.pure none

/-- Go `chroot` (main.go 69-74). -/
def chroot (newRoot : String) : Proc (Option String) :=
  Proc.bind (syscall.Chroot newRoot) fun err =>
  match err with
  | some e => Proc.pure (some ("error changing root: " ++ e))
  | none => Proc.pure none

/-- Go `changeDir` (main.go 76-81). -/
def changeDir (dir : String) : Proc (Option String) :=
  Proc.bind (os.Chdir dir) fun err =>
  match err with
  | some e => Proc.pure (some ("error changing to " ++ dir ++ ": " ++ e))
  | none => Proc.pure none

/-- The command `bindMountAndRun` builds (main.go 101-105). -/
def bindMountAndRun.cmd : exec.Cmd :=
  { exec.Command "/bin/busybox" ["sh"] with
    Stdin := some os.File.Stdin
    Stdout := some os.File.Stdout
    Stderr := some os.File.Stderr
    Env := some ["PATH=/bin"] }

/-- Go `bindMountAndRun` (main.go 83-114). -/
def bindMountAndRun : Proc Unit :=
  Proc.bind (os.Getenv "NEW_ROOT") fun newRoot =>
  Proc.bind (mountProc newRoot) fun err =>
  match err with
  | some e => Proc.bind (fmt.Fprintln os.File.Stderr e) fun _ => os.Exit 1
  | none =>
    Proc.bind (chroot newRoot) fun err =>
    match err with
    | some e => Proc.bind (fmt.Fprintln os.File.Stderr e) fun _ => os.Exit 1
    | none =>
      Proc.bind (changeDir "/cwd") fun err =>
      match err with
      | some e => Proc.bind (fmt.Fprintln os.File.Stderr e) fun _ => os.Exit 1
      | none =>
        Proc.bind (exec.Cmd.Run bindMountAndRun.cmd) fun err =>
        match err with
        | some e =>
          Proc.bind (fmt.Fprintf os.File.Stderr
            ("failed to run command in new user namespace with new filesystem: " ++ e ++ "\n"))
            fun _ => os.Exit 1
        | none => os.Exit 0

/-- The command `runInNewUserNamespaceWithNewFs` builds (main.go 127-149). -/
def runInNewUserNamespaceWithNewFs.cmd (newRoot : String) (environ : List String)
    (euid egid : Int) : exec.Cmd :=
  { reexec.Command ["bind_mount_and_run"] with
    Env := some (environ ++ ["NEW_ROOT=" ++ newRoot])
    Stdin := some os.File.Stdin
    Stdout := some os.File.Stdout
    Stderr := some os.File.Stderr
    SysProcAttr := some
      { Cloneflags := syscall.CLONE_NEWUSER ||| syscall.CLONE_NEWNS ||| syscall.CLONE_NEWPID
        UidMappings := [{ ContainerID := 0, HostID := euid, Size := 1 }]
        GidMappings := [{ ContainerID := 0, HostID := egid, Size := 1 }] } }

/-- Go `runInNewUserNamespaceWithNewFs` (main.go 116-156). -/
def runInNewUserNamespaceWithNewFs : Proc (Option String) :=
  Proc.bind (ioutil.TempDir "" "new_root") fun r =>
  match r.2 with
  | some e => Proc.pure (some ("failed to create temporary directory: " ++ e))
  | none =>
    Proc.withDefer (os.RemoveAll r.1)
      (Proc.bind (createMinimalRootFs r.1) fun err =>
       match err with
       | some e => Proc.pure (some e)
       | none =>
         Proc.bind os.Environ fun environ =>
         Proc.bind os.Geteuid fun euid =>
         Proc.bind os.Getegid fun egid =>
         Proc.bind (exec.Cmd.Run (runInNewUserNamespaceWithNewFs.cmd r.1 environ euid egid))
           fun err =>
         match err with
         | some e =>
           Proc.pure
             (some ("failed to run command in new user namespace with new filesystem: " ++ e))
         | none => Proc.pure none)

/-- Go `main` (main.go 158-162). -/
def main : Proc Unit :=
  Proc.bind runInNewUserNamespaceWithNewFs fun err =>
  match err with
  | some e => fmt.Println ["Error:", e]
  | none => Proc.pure ()

namespace reexec

/-- The `reexec.Register(name, initializer)` of containers/storage: add the
initializer to the registry under the name. -/
def Register (name : String) (initializer : Proc Unit)
    (registeredInitializers : List (String × Proc Unit)) : List (String × Proc Unit) :=
  (name, initializer) :: registeredInitializers

/-- The `reexec.Init()` of containers/storage: when an initializer is registered
under `os.Args[0]`, run it and report true; otherwise report false. -/
def Init (registeredInitializers : List (String × Proc Unit)) : Proc Bool := fun w h =>
  match registeredInitializers.lookup w.Args0 with
  | some initializer => Proc.bind initializer (fun _ => Proc.pure true) w h
  | none => (Outcome.ret false, h)

end reexec

/-- The `if reexec.Init() { os.Exit(0) }` of `init` (main.go 16-18), from the
value `reexec.Init` reported. -/
def init.afterInit (ran : Bool) : Proc Unit :=
  if ran then os.Exit 0 else Proc.pure ()

/-- Go `init` (main.go 14-19). -/
def init : Proc Unit :=
  Proc.bind (reexec.Init (reexec.Register "bind_mount_and_run" bindMountAndRun []))
    init.afterInit

/-- One process of the program, as the Go runtime runs it: `init`, then `main`,
and exit status 0 when `main` returns.  The result is the exit status and the
calls made. -/
def process (w : World) : Int × List Call :=
  match Proc.bind init (fun _ => main) w [] with
  | (Outcome.ret _, h) => (0, h)
  | (Outcome.exit code, h) => (code, h)

/-- Every call of the list, issued in this order after `h`, succeeds. -/
def World.allOk (w : World) (h : List Call) : List Call → Bool
  | [] => true
  | c :: cs => (w.err h c).isNone && w.allOk (h ++ [c]) cs

/-- The calls of the list that are issued when they are tried in order after `h`
and the first failure ends the attempt: all of them up to and including the first
one that fails. -/
def World.attempt (w : World) (h : List Call) : List Call → List Call
  | [] => []
  | c :: cs =>
    match w.err h c with
    | some _ => [c]
    | none => c :: w.attempt (h ++ [c]) cs

/-- The procedure tries the calls `cs` in order, stops at the first failure, and
returns an error exactly when one of them failed. -/
def Attempts (p : Proc (Option String)) (cs : List Call) : Prop :=
  ∀ (w : World) (h : List Call), ∃ r,
    p w h = (Outcome.ret r, h ++ w.attempt h cs) ∧ (r = none ↔ w.allOk h cs = true)

/-- The five directory creations of the setup, in order, each with mode 0755. -/
def mkdirCalls (newRoot : String) : List Call :=
  [Call.MkdirAll (filepath.Join [newRoot, "bin"]) 0o755,
   Call.MkdirAll (filepath.Join [newRoot, "cwd"]) 0o755,
   Call.MkdirAll (filepath.Join [newRoot, "proc"]) 0o755,
   Call.MkdirAll (filepath.Join [newRoot, "sys"]) 0o755,
   Call.MkdirAll (filepath.Join [newRoot, "dev"]) 0o755]

/-- The copy of the shell binary into the new root: `cp /bin/busybox <newRoot>/bin/busybox`. -/
def busyboxCopy (newRoot : String) : Call :=
  Call.Run (exec.Command "cp" ["/bin/busybox", filepath.Join [newRoot, "bin/busybox"]])

/-- The recursive copy of the working directory: `cp -r . <newRoot>/cwd`. -/
def cwdCopy (newRoot : String) : Call :=
  Call.Run (exec.Command "cp" ["-r", ".", filepath.Join [newRoot, "cwd"]])

/-- The calls a complete root-filesystem setup consists of, in order: the five
directories, the shell binary, the working directory. -/
def setupCalls (newRoot : String) : List Call :=
  mkdirCalls newRoot ++ [busyboxCopy newRoot, cwdCopy newRoot]

/-- The call that spawns the child, built from what the world answers after `h`. -/
def spawnCall (w : World) (h : List Call) (newRoot : String) : Call :=
  Call.Run (runInNewUserNamespaceWithNewFs.cmd newRoot (w.Environ h) (w.Geteuid h) (w.Getegid h))

/-- The calls of the orchestrator between the creation and the removal of the
temporary directory: the setup, then the spawn of the child. -/
def orchestratorCalls (w : World) (h : List Call) : List Call :=
  setupCalls (w.tempName h) ++
    [spawnCall w (h ++ Call.TempDir "" "new_root" :: setupCalls (w.tempName h)) (w.tempName h)]

/-- The four steps of the entrant for a new root, in order: mount proc, switch
root, change directory, run the shell. -/
def entrantCalls (newRoot : String) : List Call :=
  [Call.Mount "proc" (filepath.Join [newRoot, "proc"]) "proc" 0 "",
   Call.Chroot newRoot,
   Call.Chdir "/cwd",
   Call.Run bindMountAndRun.cmd]

/-- The directory a call creates, when it is a directory creation. -/
def Call.mkdirPath : Call → Option String
  | Call.MkdirAll path _ => some path
  | _ => none

/-- The key of an environment entry `key=value`: the text before the first `=`. -/
def envKey (kv : String) : String :=
  String.mk (kv.data.takeWhile fun c => c != '=')

/-- The value of an environment entry `key=value`: the text after the first `=`. -/
def envValue (kv : String) : String :=
  String.mk ((kv.data.dropWhile fun c => c != '=').drop 1)

/-- A last-entry-wins lookup of a key in an environment list. -/
def lookupEnvLast (env : List String) (key : String) : Option String :=
  (env.reverse.find? fun kv => kv.data.contains '=' && envKey kv == key).map envValue

/-! ## Concrete worlds -/

/-- An orchestrator process in a world where every call succeeds: effective
user and group 1000, temporary directory `/tmp/new_root1`. -/
def okWorld : World :=
  { Args0 := "pivroot"
    err := fun _ _ => none
    tempName := fun _ => "/tmp/new_root1"
    Getenv := fun _ _ => ""
    Environ := fun _ => ["HOME=/root", "NEW_ROOT=/elsewhere"]
    Geteuid := fun _ => 1000
    Getegid := fun _ => 1000 }

/-- As `okWorld`, but the working directory is unreadable: the recursive copy
`cp -r . <newRoot>/cwd` fails. -/
def cwdUnreadableWorld : World :=
  { okWorld with
    err := fun _ c =>
      match c with
      | Call.Run cmd => if cmd.Args.take 2 = ["cp", "-r"] then some "exit status 1" else none
      | _ => none }

/-- As `okWorld`, but `/bin/busybox` is absent: `cp /bin/busybox ...` fails. -/
def busyboxAbsentWorld : World :=
  { okWorld with
    err := fun _ c =>
      match c with
      | Call.Run cmd =>
        if cmd.Args.take 2 = ["cp", "/bin/busybox"] then some "exit status 1" else none
      | _ => none }

/-- As `okWorld`, but the child cannot be run to a zero exit: running the
re-executed binary fails. -/
def childFailsWorld : World :=
  { okWorld with
    err := fun _ c =>
      match c with
      | Call.Run cmd =>
        if cmd.Args = ["bind_mount_and_run"] then some "exit status 1" else none
      | _ => none }

/-- A child process started under the re-execution name, with `NEW_ROOT` set to
`/tmp/new_root1`, in a world where every call succeeds. -/
def entrantWorld : World :=
  { okWorld with
    Args0 := "bind_mount_and_run"
    Getenv := fun _ key => if key = "NEW_ROOT" then "/tmp/new_root1" else "" }

/-- As `entrantWorld`, but the switch of the root is refused. -/
def chrootRefusedWorld : World :=
  { entrantWorld with
    err := fun _ c =>
      match c with
      | Call.Chroot _ => some "operation not permitted"
      | _ => none }

/-! ## Calls attempted in order -/

theorem World.allOk_append (w : World) (cs ds : List Call) :
    ∀ h, w.allOk h (cs ++ ds) = (w.allOk h cs && w.allOk (h ++ cs) ds) := by
  induction cs with
  | nil => intro h; simp [World.allOk]
  | cons c cs ih =>
    intro h
    simp [World.allOk, ih, Bool.and_assoc]

theorem World.attempt_of_allOk (w : World) (cs : List Call) :
    ∀ h, w.allOk h cs = true → w.attempt h cs = cs := by
  induction cs with
  | nil => intro h _; rfl
  | cons c cs ih =>
    intro h hok
    simp only [World.allOk, Bool.and_eq_true, Option.isNone_iff_eq_none] at hok
    simp [World.attempt, hok.1, ih _ hok.2]

theorem World.attempt_append_of_allOk (w : World) (cs ds : List Call) :
    ∀ h, w.allOk h cs = true → w.attempt h (cs ++ ds) = cs ++ w.attempt (h ++ cs) ds := by
  induction cs with
  | nil => intro h _; simp
  | cons c cs ih =>
    intro h hok
    simp only [World.allOk, Bool.and_eq_true, Option.isNone_iff_eq_none] at hok
    simp [World.attempt, hok.1, ih _ hok.2]

theorem World.attempt_append_of_not_allOk (w : World) (cs ds : List Call) :
    ∀ h, w.allOk h cs = false → w.attempt h (cs ++ ds) = w.attempt h cs := by
  induction cs with
  | nil => intro h hok; simp [World.allOk] at hok
  | cons c cs ih =>
    intro h hok
    cases hc : w.err h c with
    | some e => simp [World.attempt, hc]
    | none =>
      have : w.allOk (h ++ [c]) cs = false := by simpa [World.allOk, hc] using hok
      simp [World.attempt, hc, ih _ this]

theorem attempts_pure_none : Attempts (Proc.pure none) [] := by
  intro w h
  exact ⟨none, by simp [Proc.pure, World.attempt], by simp [World.allOk]⟩

theorem attempts_call (c : Call) (f : String → String) :
    Attempts
      (Proc.bind (Proc.call c) fun err =>
        match err with
        | some e => Proc.pure (some (f e))
        | none => Proc.pure none) [c] := by
  intro w h
  cases hc : w.err h c with
  | some e =>
    exact ⟨some (f e), by simp [Proc.bind, Proc.call, Proc.pure, World.attempt, hc],
      by simp [World.allOk, hc]⟩
  | none =>
    exact ⟨none, by simp [Proc.bind, Proc.call, Proc.pure, World.attempt, hc],
      by simp [World.allOk, hc]⟩

theorem attempts_seq {p q : Proc (Option String)} {cs ds : List Call}
    (hp : Attempts p cs) (hq : Attempts q ds) :
    Attempts
      (Proc.bind p fun err =>
        match err with
        | some e => Proc.pure (some e)
        | none => q) (cs ++ ds) := by
  intro w h
  obtain ⟨r, hr, hnone⟩ := hp w h
  cases r with
  | some e =>
    have hno : w.allOk h cs = false := by
      cases hb : w.allOk h cs with
      | false => rfl
      | true => exact absurd (hnone.2 hb) (by simp)
    refine ⟨some e, ?_, by simp [World.allOk_append, hno]⟩
    simp [Proc.bind, hr, Proc.pure, World.attempt_append_of_not_allOk _ _ _ _ hno]
  | none =>
    have hok : w.allOk h cs = true := hnone.1 rfl
    obtain ⟨r2, hr2, hnone2⟩ := hq w (h ++ cs)
    refine ⟨r2, ?_, by simp [World.allOk_append, hok, hnone2]⟩
    simp [Proc.bind, hr, World.attempt_of_allOk _ _ _ hok, hr2,
      World.attempt_append_of_allOk _ _ _ _ hok]

theorem attempts_createDir (newRoot dir : String) :
    Attempts (createDir newRoot dir) [Call.MkdirAll (filepath.Join [newRoot, dir]) 0o755] :=
  attempts_call _ fun e => "failed to create " ++ dir ++ " directory: " ++ e

theorem attempts_copyFile (src dest : String) :
    Attempts (copyFile src dest) [Call.Run (exec.Command "cp" [src, dest])] :=
  attempts_call _ fun e => "failed to copy " ++ src ++ " to " ++ dest ++ ": " ++ e

theorem attempts_loop (newRoot : String) (dirs : List String) :
    Attempts (createMinimalRootFs.loop newRoot dirs)
      (dirs.map fun dir => Call.MkdirAll (filepath.Join [newRoot, dir]) 0o755) := by
  induction dirs with
  | nil => exact attempts_pure_none
  | cons dir rest ih => exact attempts_seq (attempts_createDir newRoot dir) ih

theorem attempts_createMinimalRootFs (newRoot : String) :
    Attempts (createMinimalRootFs newRoot) (setupCalls newRoot) :=
  attempts_seq (attempts_loop newRoot createMinimalRootFs.dirs)
    (attempts_seq (attempts_copyFile _ _)
      (attempts_call _ fun e => "failed to copy current directory to new root: " ++ e))

theorem World.attempt_subset (w : World) (cs : List Call) :
    ∀ h c, c ∈ w.attempt h cs → c ∈ cs := by
  induction cs with
  | nil => intro h c hc; simp [World.attempt] at hc
  | cons a cs ih =>
    intro h c hc
    cases ha : w.err h a with
    | some e =>
      simp only [World.attempt, ha, List.mem_singleton] at hc
      simp [hc]
    | none =>
      simp only [World.attempt, ha, List.mem_cons] at hc
      rcases hc with hc | hc
      · simp [hc]
      · exact List.mem_cons_of_mem _ (ih _ _ hc)

/-- In an attempt nothing follows a call that failed. -/
theorem World.attempt_failure_last (w : World) (cs : List Call) :
    ∀ h pre c post e, w.attempt h cs = pre ++ c :: post → w.err (h ++ pre) c = some e →
      post = [] := by
  induction cs with
  | nil => intro h pre c post e heq _; simp [World.attempt] at heq
  | cons a cs ih =>
    intro h pre c post e heq herr
    cases ha : w.err h a with
    | some e1 =>
      simp only [World.attempt, ha] at heq
      cases pre with
      | nil => simp at heq; exact heq.2
      | cons b pre => simp at heq
    | none =>
      simp only [World.attempt, ha] at heq
      cases pre with
      | nil =>
        simp only [List.nil_append, List.cons.injEq] at heq
        rw [← heq.1] at herr
        simp [ha] at herr
      | cons b pre =>
        simp only [List.cons_append, List.cons.injEq] at heq
        obtain ⟨rfl, heq⟩ := heq
        refine ih (h ++ [a]) pre c post e heq ?_
        simpa using herr

/-- An attempt contains a failed call exactly when not all calls succeed. -/
theorem World.attempt_failed_iff (w : World) (cs : List Call) :
    ∀ h, w.allOk h cs = false ↔
      ∃ pre c post e, w.attempt h cs = pre ++ c :: post ∧ w.err (h ++ pre) c = some e := by
  induction cs with
  | nil => intro h; simp [World.allOk, World.attempt]
  | cons a cs ih =>
    intro h
    cases ha : w.err h a with
    | some e1 =>
      simp only [World.allOk, ha, World.attempt]
      simp only [Option.isNone_some, Bool.false_and, true_iff]
      exact ⟨[], a, [], e1, by simp, by simpa using ha⟩
    | none =>
      simp only [World.allOk, ha, World.attempt, Option.isNone_none, Bool.true_and]
      rw [ih (h ++ [a])]
      constructor
      · rintro ⟨pre, c, post, e, heq, herr⟩
        exact ⟨a :: pre, c, post, e, by simp [heq], by simpa using herr⟩
      · rintro ⟨pre, c, post, e, heq, herr⟩
        cases pre with
        | nil =>
          simp only [List.nil_append, List.cons.injEq] at heq
          rw [← heq.1] at herr
          simp [ha] at herr
        | cons b pre =>
          simp only [List.cons_append, List.cons.injEq] at heq
          obtain ⟨rfl, heq⟩ := heq
          exact ⟨pre, c, post, e, heq, by simpa using herr⟩

theorem run_tempDir_failed (w : World) (h : List Call) (e : String)
    (ht : w.err h (Call.TempDir "" "new_root") = some e) :
    runInNewUserNamespaceWithNewFs w h =
      (Outcome.ret (some ("failed to create temporary directory: " ++ e)),
        h ++ [Call.TempDir "" "new_root"]) := by
  simp [runInNewUserNamespaceWithNewFs, Proc.bind, ioutil.TempDir, ht, Proc.pure]

theorem orchestratorCalls_allOk (w : World) (h : List Call)
    (hok : w.allOk (h ++ [Call.TempDir "" "new_root"]) (setupCalls (w.tempName h)) = true) :
    w.allOk (h ++ [Call.TempDir "" "new_root"]) (orchestratorCalls w h) =
      (w.err (h ++ Call.TempDir "" "new_root" :: setupCalls (w.tempName h))
        (spawnCall w (h ++ Call.TempDir "" "new_root" :: setupCalls (w.tempName h))
          (w.tempName h))).isNone := by
  unfold orchestratorCalls
  rw [World.allOk_append, hok]
  simp only [Bool.true_and, World.allOk, Bool.and_true, List.append_assoc, List.singleton_append]

theorem orchestratorCalls_attempt (w : World) (h : List Call)
    (hok : w.allOk (h ++ [Call.TempDir "" "new_root"]) (setupCalls (w.tempName h)) = true) :
    w.attempt (h ++ [Call.TempDir "" "new_root"]) (orchestratorCalls w h) =
      orchestratorCalls w h := by
  unfold orchestratorCalls
  rw [World.attempt_append_of_allOk _ _ _ _ hok]
  congr 1
  cases hs : w.err (h ++ [Call.TempDir "" "new_root"] ++ setupCalls (w.tempName h))
      (spawnCall w (h ++ Call.TempDir "" "new_root" :: setupCalls (w.tempName h))
        (w.tempName h)) with
  | some e => simp only [World.attempt, hs]
  | none => simp only [World.attempt, hs]

theorem run_tempDir_ok (w : World) (h : List Call)
    (ht : w.err h (Call.TempDir "" "new_root") = none) :
    ∃ r, runInNewUserNamespaceWithNewFs w h =
        (Outcome.ret r,
          h ++ Call.TempDir "" "new_root" ::
            (w.attempt (h ++ [Call.TempDir "" "new_root"]) (orchestratorCalls w h) ++
              [Call.RemoveAll (w.tempName h)])) ∧
      (r = none ↔ w.allOk (h ++ [Call.TempDir "" "new_root"]) (orchestratorCalls w h) = true) ∧
      (∀ e, (createMinimalRootFs (w.tempName h) w (h ++ [Call.TempDir "" "new_root"])).1 =
          Outcome.ret (some e) → r = some e) := by
  obtain ⟨r1, hr1, hnone1⟩ :=
    attempts_createMinimalRootFs (w.tempName h) w (h ++ [Call.TempDir "" "new_root"])
  cases r1 with
  | some e =>
    have hno : w.allOk (h ++ [Call.TempDir "" "new_root"]) (setupCalls (w.tempName h)) = false := by
      cases hb : w.allOk (h ++ [Call.TempDir "" "new_root"]) (setupCalls (w.tempName h)) with
      | false => rfl
      | true => exact absurd (hnone1.2 hb) (by simp)
    have hall : w.allOk (h ++ [Call.TempDir "" "new_root"]) (orchestratorCalls w h) = false := by
      unfold orchestratorCalls
      rw [World.allOk_append, hno, Bool.false_and]
    have hatt : w.attempt (h ++ [Call.TempDir "" "new_root"]) (orchestratorCalls w h) =
        w.attempt (h ++ [Call.TempDir "" "new_root"]) (setupCalls (w.tempName h)) := by
      unfold orchestratorCalls
      rw [World.attempt_append_of_not_allOk _ _ _ _ hno]
    refine ⟨some e, ?_, by simp [hall], ?_⟩
    · rw [hatt]
      simp [runInNewUserNamespaceWithNewFs, Proc.bind, ioutil.TempDir, ht, Proc.withDefer, hr1,
        Proc.pure, os.RemoveAll, Proc.call_]
    · intro e1 he1
      rw [hr1] at he1
      simpa using he1
  | none =>
    have hok : w.allOk (h ++ [Call.TempDir "" "new_root"]) (setupCalls (w.tempName h)) = true :=
      hnone1.1 rfl
    rw [World.attempt_of_allOk _ _ _ hok] at hr1
    have hall := orchestratorCalls_allOk w h hok
    have hatt := orchestratorCalls_attempt w h hok
    have hnot : ∀ e, (createMinimalRootFs (w.tempName h) w
        (h ++ [Call.TempDir "" "new_root"])).1 = Outcome.ret (some e) → False := by
      intro e1 he1
      rw [hr1] at he1
      simp at he1
    cases hs : w.err (h ++ Call.TempDir "" "new_root" :: setupCalls (w.tempName h))
        (spawnCall w (h ++ Call.TempDir "" "new_root" :: setupCalls (w.tempName h))
          (w.tempName h)) with
    | some e =>
      refine ⟨some ("failed to run command in new user namespace with new filesystem: " ++ e),
        ?_, by simp [hall, hs], fun e1 he1 => (hnot e1 he1).elim⟩
      rw [hatt]
      simp only [spawnCall] at hs
      simp [runInNewUserNamespaceWithNewFs, Proc.bind, ioutil.TempDir, ht, Proc.withDefer, hr1,
        Proc.pure, os.RemoveAll, Proc.call_, orchestratorCalls, os.Environ, os.Geteuid,
        os.Getegid, exec.Cmd.Run, Proc.call, hs, spawnCall]
    | none =>
      refine ⟨none, ?_, by simp [hall, hs], fun e1 he1 => (hnot e1 he1).elim⟩
      rw [hatt]
      simp only [spawnCall] at hs
      simp [runInNewUserNamespaceWithNewFs, Proc.bind, ioutil.TempDir, ht, Proc.withDefer, hr1,
        Proc.pure, os.RemoveAll, Proc.call_, orchestratorCalls, os.Environ, os.Geteuid,
        os.Getegid, exec.Cmd.Run, Proc.call, hs, spawnCall]

theorem entrant_mount_failed (w : World) (h : List Call) (e : String)
    (h1 : w.err h (Call.Mount "proc" (filepath.Join [w.Getenv h "NEW_ROOT", "proc"]) "proc" 0 "")
      = some e) :
    bindMountAndRun w h =
      (Outcome.exit 1,
        h ++ [Call.Mount "proc" (filepath.Join [w.Getenv h "NEW_ROOT", "proc"]) "proc" 0 "",
          Call.Write os.File.Stderr ("error mounting /proc: " ++ e ++ "\n")]) := by
  simp [bindMountAndRun, Proc.bind, os.Getenv, mountProc, syscall.Mount, Proc.call, h1,
    Proc.pure, fmt.Fprintln, Proc.call_, os.Exit]

theorem entrant_chroot_failed (w : World) (h : List Call) (e : String)
    (h1 : w.err h (Call.Mount "proc" (filepath.Join [w.Getenv h "NEW_ROOT", "proc"]) "proc" 0 "")
      = none)
    (h2 : w.err
      (h ++ [Call.Mount "proc" (filepath.Join [w.Getenv h "NEW_ROOT", "proc"]) "proc" 0 ""])
      (Call.Chroot (w.Getenv h "NEW_ROOT")) = some e) :
    bindMountAndRun w h =
      (Outcome.exit 1,
        h ++ [Call.Mount "proc" (filepath.Join [w.Getenv h "NEW_ROOT", "proc"]) "proc" 0 "",
          Call.Chroot (w.Getenv h "NEW_ROOT"),
          Call.Write os.File.Stderr ("error changing root: " ++ e ++ "\n")]) := by
  simp [bindMountAndRun, Proc.bind, os.Getenv, mountProc, syscall.Mount, Proc.call, h1, h2,
    Proc.pure, fmt.Fprintln, Proc.call_, os.Exit, chroot, syscall.Chroot]

theorem entrant_chdir_failed (w : World) (h : List Call) (e : String)
    (h1 : w.err h (Call.Mount "proc" (filepath.Join [w.Getenv h "NEW_ROOT", "proc"]) "proc" 0 "")
      = none)
    (h2 : w.err
      (h ++ [Call.Mount "proc" (filepath.Join [w.Getenv h "NEW_ROOT", "proc"]) "proc" 0 ""])
      (Call.Chroot (w.Getenv h "NEW_ROOT")) = none)
    (h3 : w.err
      (h ++ [Call.Mount "proc" (filepath.Join [w.Getenv h "NEW_ROOT", "proc"]) "proc" 0 "",
        Call.Chroot (w.Getenv h "NEW_ROOT")])
      (Call.Chdir "/cwd") = some e) :
    bindMountAndRun w h =
      (Outcome.exit 1,
        h ++ [Call.Mount "proc" (filepath.Join [w.Getenv h "NEW_ROOT", "proc"]) "proc" 0 "",
          Call.Chroot (w.Getenv h "NEW_ROOT"), Call.Chdir "/cwd",
          Call.Write os.File.Stderr ("error changing to /cwd: " ++ e ++ "\n")]) := by
  simp [bindMountAndRun, Proc.bind, os.Getenv, mountProc, syscall.Mount, Proc.call, h1, h2, h3,
    Proc.pure, fmt.Fprintln, Proc.call_, os.Exit, chroot, syscall.Chroot, changeDir, os.Chdir]

theorem entrant_shell_failed (w : World) (h : List Call) (e : String)
    (h1 : w.err h (Call.Mount "proc" (filepath.Join [w.Getenv h "NEW_ROOT", "proc"]) "proc" 0 "")
      = none)
    (h2 : w.err
      (h ++ [Call.Mount "proc" (filepath.Join [w.Getenv h "NEW_ROOT", "proc"]) "proc" 0 ""])
      (Call.Chroot (w.Getenv h "NEW_ROOT")) = none)
    (h3 : w.err
      (h ++ [Call.Mount "proc" (filepath.Join [w.Getenv h "NEW_ROOT", "proc"]) "proc" 0 "",
        Call.Chroot (w.Getenv h "NEW_ROOT")])
      (Call.Chdir "/cwd") = none)
    (h4 : w.err
      (h ++ [Call.Mount "proc" (filepath.Join [w.Getenv h "NEW_ROOT", "proc"]) "proc" 0 "",
        Call.Chroot (w.Getenv h "NEW_ROOT"), Call.Chdir "/cwd"])
      (Call.Run bindMountAndRun.cmd) = some e) :
    bindMountAndRun w h =
      (Outcome.exit 1,
        h ++ [Call.Mount "proc" (filepath.Join [w.Getenv h "NEW_ROOT", "proc"]) "proc" 0 "",
          Call.Chroot (w.Getenv h "NEW_ROOT"), Call.Chdir "/cwd", Call.Run bindMountAndRun.cmd,
          Call.Write os.File.Stderr
            ("failed to run command in new user namespace with new filesystem: " ++ e ++ "\n")])
    := by
  simp [bindMountAndRun, Proc.bind, os.Getenv, mountProc, syscall.Mount, Proc.call, h1, h2, h3,
    h4, Proc.pure, fmt.Fprintf, Proc.call_, os.Exit, chroot, syscall.Chroot, changeDir,
    os.Chdir, exec.Cmd.Run]

theorem entrant_all_ok (w : World) (h : List Call)
    (h1 : w.err h (Call.Mount "proc" (filepath.Join [w.Getenv h "NEW_ROOT", "proc"]) "proc" 0 "")
      = none)
    (h2 : w.err
      (h ++ [Call.Mount "proc" (filepath.Join [w.Getenv h "NEW_ROOT", "proc"]) "proc" 0 ""])
      (Call.Chroot (w.Getenv h "NEW_ROOT")) = none)
    (h3 : w.err
      (h ++ [Call.Mount "proc" (filepath.Join [w.Getenv h "NEW_ROOT", "proc"]) "proc" 0 "",
        Call.Chroot (w.Getenv h "NEW_ROOT")])
      (Call.Chdir "/cwd") = none)
    (h4 : w.err
      (h ++ [Call.Mount "proc" (filepath.Join [w.Getenv h "NEW_ROOT", "proc"]) "proc" 0 "",
        Call.Chroot (w.Getenv h "NEW_ROOT"), Call.Chdir "/cwd"])
      (Call.Run bindMountAndRun.cmd) = none) :
    bindMountAndRun w h =
      (Outcome.exit 0,
        h ++ [Call.Mount "proc" (filepath.Join [w.Getenv h "NEW_ROOT", "proc"]) "proc" 0 "",
          Call.Chroot (w.Getenv h "NEW_ROOT"), Call.Chdir "/cwd", Call.Run bindMountAndRun.cmd])
    := by
  simp [bindMountAndRun, Proc.bind, os.Getenv, mountProc, syscall.Mount, Proc.call, h1, h2, h3,
    h4, Proc.pure, os.Exit, chroot, syscall.Chroot, changeDir, os.Chdir, exec.Cmd.Run]

/-- The entrant always ends in an exit: with status 0 after its four calls when
they all succeed, and otherwise with status 1 after the calls up to the first
failure and one line on the error stream. -/
theorem entrant_exits (w : World) (h : List Call) :
    (w.allOk h (entrantCalls (w.Getenv h "NEW_ROOT")) = true ∧
      bindMountAndRun w h = (Outcome.exit 0, h ++ entrantCalls (w.Getenv h "NEW_ROOT"))) ∨
    (w.allOk h (entrantCalls (w.Getenv h "NEW_ROOT")) = false ∧
      ∃ s, bindMountAndRun w h =
        (Outcome.exit 1,
          h ++ (w.attempt h (entrantCalls (w.Getenv h "NEW_ROOT")) ++
            [Call.Write os.File.Stderr s]))) := by
  cases h1 : w.err h
      (Call.Mount "proc" (filepath.Join [w.Getenv h "NEW_ROOT", "proc"]) "proc" 0 "") with
  | some e =>
    right
    exact ⟨by simp [entrantCalls, World.allOk, h1],
      "error mounting /proc: " ++ e ++ "\n", by rw [entrant_mount_failed w h e h1]; simp [entrantCalls, World.attempt, h1]⟩
  | none =>
    cases h2 : w.err
        (h ++ [Call.Mount "proc" (filepath.Join [w.Getenv h "NEW_ROOT", "proc"]) "proc" 0 ""])
        (Call.Chroot (w.Getenv h "NEW_ROOT")) with
    | some e =>
      right
      exact ⟨by simp [entrantCalls, World.allOk, h1, h2],
        "error changing root: " ++ e ++ "\n", by rw [entrant_chroot_failed w h e h1 h2]; simp [entrantCalls, World.attempt, h1, h2]⟩
    | none =>
      cases h3 : w.err
          (h ++ [Call.Mount "proc" (filepath.Join [w.Getenv h "NEW_ROOT", "proc"]) "proc" 0 "",
            Call.Chroot (w.Getenv h "NEW_ROOT")])
          (Call.Chdir "/cwd") with
      | some e =>
        right
        exact ⟨by simp [entrantCalls, World.allOk, h1, h2, h3],
          "error changing to /cwd: " ++ e ++ "\n", by
            rw [entrant_chdir_failed w h e h1 h2 h3]
            simp [entrantCalls, World.attempt, h1, h2, h3]⟩
      | none =>
        cases h4 : w.err
            (h ++ [Call.Mount "proc" (filepath.Join [w.Getenv h "NEW_ROOT", "proc"]) "proc" 0 "",
              Call.Chroot (w.Getenv h "NEW_ROOT"), Call.Chdir "/cwd"])
            (Call.Run bindMountAndRun.cmd) with
        | some e =>
          right
          exact ⟨by simp [entrantCalls, World.allOk, h1, h2, h3, h4],
            "failed to run command in new user namespace with new filesystem: " ++ e ++ "\n",
            by
              rw [entrant_shell_failed w h e h1 h2 h3 h4]
              simp [entrantCalls, World.attempt, h1, h2, h3, h4]⟩
        | none =>
          left
          exact ⟨by simp [entrantCalls, World.allOk, h1, h2, h3, h4],
            by rw [entrant_all_ok w h h1 h2 h3 h4]; simp [entrantCalls]⟩

/-! ## Facts used by several properties -/

theorem orchestratorCalls_not_removeAll (w : World) (h : List Call) (c : Call)
    (hc : c ∈ orchestratorCalls w h) (p : String) : c ≠ Call.RemoveAll p := by
  intro heq
  subst heq
  simp [orchestratorCalls, setupCalls, mkdirCalls, busyboxCopy, cwdCopy, spawnCall] at hc

theorem orchestratorCalls_not_write (w : World) (h : List Call) (c : Call)
    (hc : c ∈ orchestratorCalls w h) (f : os.File) (s : String) : c ≠ Call.Write f s := by
  intro heq
  subst heq
  simp [orchestratorCalls, setupCalls, mkdirCalls, busyboxCopy, cwdCopy, spawnCall] at hc

/-- Splitting a list that ends in `x` around one of its elements. -/
theorem split_concat {α : Type} (a : List α) (x : α) (pre : List α) (c : α) (post : List α)
    (heq : a ++ [x] = pre ++ c :: post) :
    (post = [] ∧ c = x ∧ a = pre) ∨ ∃ post1, post = post1 ++ [x] ∧ a = pre ++ c :: post1 := by
  rcases List.eq_nil_or_concat post with rfl | ⟨post1, y, rfl⟩
  · left
    have h2 := List.append_inj' heq (by simp)
    exact ⟨rfl, by simpa using h2.2.symm, h2.1⟩
  · right
    have h1 : a ++ [x] = (pre ++ c :: post1) ++ [y] := by simpa using heq
    have h2 := List.append_inj' h1 (by simp)
    have h3 : x = y := by simpa using h2.2
    exact ⟨post1, by rw [h3, List.concat_eq_append], h2.1⟩

theorem createMinimalRootFs_busybox_failed (newRoot : String) (w : World) (h : List Call)
    (e : String) (hok : w.allOk h (mkdirCalls newRoot) = true)
    (hb : w.err (h ++ mkdirCalls newRoot) (busyboxCopy newRoot) = some e) :
    createMinimalRootFs newRoot w h =
      (Outcome.ret (some ("failed to copy /bin/busybox to " ++
          filepath.Join [newRoot, "bin/busybox"] ++ ": " ++ e)),
        h ++ mkdirCalls newRoot ++ [busyboxCopy newRoot]) := by
  simp only [mkdirCalls, World.allOk, Bool.and_eq_true, Option.isNone_iff_eq_none,
    List.append_assoc, List.cons_append, List.nil_append, and_true] at hok
  simp only [mkdirCalls, busyboxCopy] at hb
  obtain ⟨h1, h2, h3, h4, h5⟩ := hok
  simp [createMinimalRootFs, createMinimalRootFs.loop, createMinimalRootFs.dirs, createDir,
    copyFile, os.MkdirAll, exec.Cmd.Run, Proc.bind, Proc.call, Proc.pure, h1, h2, h3, h4, h5,
    hb, mkdirCalls, busyboxCopy]

theorem init_not_reexec (w : World) (h : List Call) (hname : w.Args0 ≠ "bind_mount_and_run") :
    init w h = (Outcome.ret (), h) := by
  have hb : (w.Args0 == "bind_mount_and_run") = false := by simpa using hname
  simp [init, reexec.Init, reexec.Register, List.lookup, hb, Proc.bind, init.afterInit,
    Proc.pure]

theorem createMinimalRootFs_ok_iff (newRoot : String) (w : World) (h : List Call) :
    ((createMinimalRootFs newRoot w h).1 = Outcome.ret none ↔
      w.allOk h (setupCalls newRoot) = true) ∧
    ((createMinimalRootFs newRoot w h).1 = Outcome.ret none →
      (createMinimalRootFs newRoot w h).2 = h ++ setupCalls newRoot) := by
  obtain ⟨r, hr, hnone⟩ := attempts_createMinimalRootFs newRoot w h
  rw [hr]
  constructor
  · simp only [Outcome.ret.injEq]
    exact hnone
  · intro hs
    simp only [Outcome.ret.injEq] at hs
    simp only [World.attempt_of_allOk _ _ _ (hnone.1 hs)]

/-- When the temporary directory and the setup succeed, the child is spawned right
after the setup. -/
theorem run_reaches_spawn (w : World) (h : List Call)
    (ht : w.err h (Call.TempDir "" "new_root") = none)
    (hok : w.allOk (h ++ [Call.TempDir "" "new_root"]) (setupCalls (w.tempName h)) = true) :
    ∃ r, runInNewUserNamespaceWithNewFs w h =
      (Outcome.ret r,
        h ++ [Call.TempDir "" "new_root"] ++ setupCalls (w.tempName h) ++
          [spawnCall w (h ++ Call.TempDir "" "new_root" :: setupCalls (w.tempName h))
            (w.tempName h), Call.RemoveAll (w.tempName h)]) := by
  obtain ⟨r, hr, _, _⟩ := run_tempDir_ok w h ht
  refine ⟨r, ?_⟩
  rw [hr, orchestratorCalls_attempt w h hok]
  simp [orchestratorCalls]

theorem setupCalls_not_spawn (newRoot : String) (cmd : exec.Cmd)
    (hc : Call.Run cmd ∈ setupCalls newRoot) : cmd.Args.head? = some "cp" := by
  simp only [setupCalls, mkdirCalls, busyboxCopy, cwdCopy, List.cons_append, List.nil_append,
    List.mem_cons, reduceCtorEq, Call.Run.injEq, List.not_mem_nil, or_false, false_or] at hc
  rcases hc with hc | hc <;> rw [hc] <;> rfl

theorem envKey_newRoot (d : String) : envKey ("NEW_ROOT=" ++ d) = "NEW_ROOT" := by
  have hdata : ("NEW_ROOT=" ++ d).data =
      'N' :: 'E' :: 'W' :: '_' :: 'R' :: 'O' :: 'O' :: 'T' :: '=' :: d.data := by
    rw [String.data_append]; rfl
  simp [envKey, hdata, List.takeWhile]

theorem envValue_newRoot (d : String) : envValue ("NEW_ROOT=" ++ d) = d := by
  have hdata : ("NEW_ROOT=" ++ d).data =
      'N' :: 'E' :: 'W' :: '_' :: 'R' :: 'O' :: 'O' :: 'T' :: '=' :: d.data := by
    rw [String.data_append]; rfl
  simp [envValue, hdata, List.dropWhile]

theorem lookupEnvLast_newRoot (env : List String) (d : String) :
    lookupEnvLast (env ++ ["NEW_ROOT=" ++ d]) "NEW_ROOT" = some d := by
  have hdata : ("NEW_ROOT=" ++ d).data =
      'N' :: 'E' :: 'W' :: '_' :: 'R' :: 'O' :: 'O' :: 'T' :: '=' :: d.data := by
    rw [String.data_append]; rfl
  have hc : ("NEW_ROOT=" ++ d).data.contains '=' = true := by
    rw [hdata]; simp
  simp [lookupEnvLast, List.find?, hc, envKey_newRoot, envValue_newRoot]

/-- The calls of the entrant: it always exits, after calls that are its four
steps, in order up to the first failure, and at most one line on the error
stream. -/
theorem entrant_calls (w : World) (h : List Call) :
    ∃ code calls, bindMountAndRun w h = (Outcome.exit code, h ++ calls) ∧
      ∀ c ∈ calls, c ∈ entrantCalls (w.Getenv h "NEW_ROOT") ∨ ∃ s, c = Call.Write os.File.Stderr s
    := by
  rcases entrant_exits w h with ⟨_, hrun⟩ | ⟨_, s, hrun⟩
  · exact ⟨0, _, hrun, fun c hc => Or.inl hc⟩
  · refine ⟨1, _, hrun, ?_⟩
    intro c hc
    simp only [List.mem_append, List.mem_singleton] at hc
    rcases hc with hc | hc
    · exact Or.inl (World.attempt_subset w _ _ _ hc)
    · exact Or.inr ⟨s, hc⟩

theorem init_reexec (w : World) (h : List Call) (hname : w.Args0 = "bind_mount_and_run") :
    init w h =
      match bindMountAndRun w h with
      | (Outcome.ret _, h1) => (Outcome.exit 0, h1)
      | (Outcome.exit code, h1) => (Outcome.exit code, h1) := by
  simp only [init, reexec.Init, reexec.Register, List.lookup, hname, beq_self_eq_true,
    Proc.bind, Proc.pure, init.afterInit]
  rcases hb : bindMountAndRun w h with ⟨_ | code, h1⟩ <;> simp [os.Exit]

/-- The entrant first mounts proc under the value of `NEW_ROOT`, and when that
succeeds it next switches the root to that value. -/
theorem entrant_uses_newRoot (w : World) (h : List Call) :
    ∃ rest, (bindMountAndRun w h).2 =
        h ++ Call.Mount "proc" (filepath.Join [w.Getenv h "NEW_ROOT", "proc"]) "proc" 0 "" :: rest ∧
      (w.err h (Call.Mount "proc" (filepath.Join [w.Getenv h "NEW_ROOT", "proc"]) "proc" 0 "")
          = none →
        ∃ rest2, rest = Call.Chroot (w.Getenv h "NEW_ROOT") :: rest2) := by
  rcases entrant_exits w h with ⟨hok, hrun⟩ | ⟨_, s, hrun⟩
  · exact ⟨_, by rw [hrun]; rfl, fun _ => ⟨_, rfl⟩⟩
  · cases h1 : w.err h
        (Call.Mount "proc" (filepath.Join [w.Getenv h "NEW_ROOT", "proc"]) "proc" 0 "") with
    | some e =>
      refine ⟨[Call.Write os.File.Stderr s], ?_, fun hn => by simp at hn⟩
      rw [hrun]
      simp [entrantCalls, World.attempt, h1]
    | none =>
      cases h2 : w.err
          (h ++ [Call.Mount "proc" (filepath.Join [w.Getenv h "NEW_ROOT", "proc"]) "proc" 0 ""])
          (Call.Chroot (w.Getenv h "NEW_ROOT")) with
      | some e =>
        refine ⟨[Call.Chroot (w.Getenv h "NEW_ROOT"), Call.Write os.File.Stderr s], ?_,
          fun _ => ⟨_, rfl⟩⟩
        rw [hrun]
        simp [entrantCalls, World.attempt, h1, h2]
      | none =>
        refine ⟨Call.Chroot (w.Getenv h "NEW_ROOT") ::
          (w.attempt (h ++ [Call.Mount "proc" (filepath.Join [w.Getenv h "NEW_ROOT", "proc"])
              "proc" 0 "", Call.Chroot (w.Getenv h "NEW_ROOT")])
            [Call.Chdir "/cwd", Call.Run bindMountAndRun.cmd] ++
            [Call.Write os.File.Stderr s]), ?_, fun _ => ⟨_, rfl⟩⟩
        rw [hrun]
        simp only [entrantCalls, World.attempt, h1, h2, List.append_assoc, List.cons_append,
          List.nil_append]

/-! ## Properties of the orchestrator -/

/-- C1: whenever the temporary directory was created, `runInNewUserNamespaceWithNewFs`
returns after a list of calls that ends with `os.RemoveAll` on that directory and
contains no other removal, whatever failed or succeeded in between; when the
creation of the temporary directory fails, the creation attempt is the only call
made, so nothing is removed. -/
theorem removeAll_once_and_last (w : World) (h : List Call) :
    (w.err h (Call.TempDir "" "new_root") = none →
      ∃ r mid,
        runInNewUserNamespaceWithNewFs w h =
          (Outcome.ret r,
            h ++ Call.TempDir "" "new_root" :: (mid ++ [Call.RemoveAll (w.tempName h)])) ∧
        ∀ p, Call.RemoveAll p ∉ mid) ∧
    (∀ e, w.err h (Call.TempDir "" "new_root") = some e →
      ∃ r, runInNewUserNamespaceWithNewFs w h =
        (Outcome.ret r, h ++ [Call.TempDir "" "new_root"])) := by
  constructor
  · intro ht
    obtain ⟨r, hr, _, _⟩ := run_tempDir_ok w h ht
    refine ⟨r, _, hr, ?_⟩
    intro p hp
    exact orchestratorCalls_not_removeAll w h _ (World.attempt_subset w _ _ _ hp) p rfl
  · intro e he
    exact ⟨_, run_tempDir_failed w h e he⟩

/-- Witnesses C1 in the world where the recursive copy of the working directory
fails: the removal of `/tmp/new_root1` is the last call. -/
theorem removeAll_once_and_last_witness :
    ∃ r mid,
      runInNewUserNamespaceWithNewFs cwdUnreadableWorld [] =
        (Outcome.ret r,
          [] ++ Call.TempDir "" "new_root" :: (mid ++ [Call.RemoveAll "/tmp/new_root1"])) ∧
      ∀ p, Call.RemoveAll p ∉ mid :=
  (removeAll_once_and_last cwdUnreadableWorld []).1 rfl

/-- C9: `runInNewUserNamespaceWithNewFs` always returns.  Its steps are the
creation of the temporary directory, the five directory creations, the copy of
the shell binary, the copy of the working directory and the run of the child: it
tries them in this order as far as the first failure, removes the temporary
directory when it was created, and returns no error exactly when the world lets
every one of these steps succeed; so an error is returned exactly when one of the
calls it made, other than the final removal, was answered with an error.  It
writes nothing itself, and `main` returns normally after writing one line
`Error: ...` when there was an error and nothing otherwise. -/
theorem run_error_iff_step_failed (w : World) (h : List Call) :
    ∃ r suffix,
      runInNewUserNamespaceWithNewFs w h = (Outcome.ret r, h ++ suffix) ∧
      (r = none ↔ w.allOk h (Call.TempDir "" "new_root" :: orchestratorCalls w h) = true) ∧
      suffix =
        w.attempt h (Call.TempDir "" "new_root" :: orchestratorCalls w h) ++
          (match w.err h (Call.TempDir "" "new_root") with
            | some _ => []
            | none => [Call.RemoveAll (w.tempName h)]) ∧
      orchestratorCalls w h =
        [Call.MkdirAll (filepath.Join [w.tempName h, "bin"]) 0o755,
         Call.MkdirAll (filepath.Join [w.tempName h, "cwd"]) 0o755,
         Call.MkdirAll (filepath.Join [w.tempName h, "proc"]) 0o755,
         Call.MkdirAll (filepath.Join [w.tempName h, "sys"]) 0o755,
         Call.MkdirAll (filepath.Join [w.tempName h, "dev"]) 0o755,
         Call.Run (exec.Command "cp"
           ["/bin/busybox", filepath.Join [w.tempName h, "bin/busybox"]]),
         Call.Run (exec.Command "cp" ["-r", ".", filepath.Join [w.tempName h, "cwd"]]),
         Call.Run (runInNewUserNamespaceWithNewFs.cmd (w.tempName h)
           (w.Environ (h ++ Call.TempDir "" "new_root" :: setupCalls (w.tempName h)))
           (w.Geteuid (h ++ Call.TempDir "" "new_root" :: setupCalls (w.tempName h)))
           (w.Getegid (h ++ Call.TempDir "" "new_root" :: setupCalls (w.tempName h))))] ∧
      (r ≠ none ↔
        ∃ pre c post e, suffix = pre ++ c :: post ∧ (∀ p, c ≠ Call.RemoveAll p) ∧
          w.err (h ++ pre) c = some e) ∧
      (∀ c ∈ suffix, c = Call.TempDir "" "new_root" ∨ c ∈ orchestratorCalls w h ∨
        c = Call.RemoveAll (w.tempName h)) ∧
      (∀ f s, Call.Write f s ∉ suffix) ∧
      main w h =
        (Outcome.ret (),
          h ++ suffix ++
            match r with
            | some e => [Call.Write os.File.Stdout ("Error: " ++ e ++ "\n")]
            | none => []) := by
  cases ht : w.err h (Call.TempDir "" "new_root") with
  | some e =>
    have hrun := run_tempDir_failed w h e ht
    refine ⟨_, [Call.TempDir "" "new_root"], hrun, ?_, ?_, rfl, ?_, by simp, by simp, ?_⟩
    · simp [World.allOk, ht]
    · simp [World.attempt, ht]
    · simp only [ne_eq, reduceCtorEq, not_false_eq_true, true_iff]
      exact ⟨[], _, [], e, rfl, by simp, by simpa using ht⟩
    · simp [main, Proc.bind, hrun, fmt.Println, Proc.call_, String.intercalate,
        String.intercalate.go]
  | none =>
    obtain ⟨r, hr, hnone, _⟩ := run_tempDir_ok w h ht
    have hsub : ∀ c ∈ w.attempt (h ++ [Call.TempDir "" "new_root"]) (orchestratorCalls w h),
        c ∈ orchestratorCalls w h := fun c hc => World.attempt_subset w _ _ _ hc
    refine ⟨r, _, hr, ?_, ?_, rfl, ?_, ?_, ?_, ?_⟩
    · rw [hnone]
      simp [World.allOk, ht]
    · simp [World.attempt, ht]
    · have hfail := World.attempt_failed_iff w (orchestratorCalls w h)
        (h ++ [Call.TempDir "" "new_root"])
      have hr' : r ≠ none ↔
          w.allOk (h ++ [Call.TempDir "" "new_root"]) (orchestratorCalls w h) = false := by
        rw [ne_eq, hnone]; simp
      rw [hr', hfail]
      constructor
      · rintro ⟨pre, c, post, e, heq, herr⟩
        refine ⟨Call.TempDir "" "new_root" :: pre, c, post ++ [Call.RemoveAll (w.tempName h)],
          e, by simp [heq], ?_, by simpa using herr⟩
        intro p
        exact orchestratorCalls_not_removeAll w h c (hsub c (by simp [heq])) p
      · rintro ⟨pre, c, post, e, heq, hnot, herr⟩
        cases pre with
        | nil =>
          simp only [List.nil_append, List.cons.injEq] at heq
          rw [← heq.1] at herr
          simp [ht] at herr
        | cons b pre =>
          simp only [List.cons_append, List.cons.injEq] at heq
          obtain ⟨rfl, heq⟩ := heq
          rcases split_concat _ _ _ _ _ heq with ⟨_, hc, _⟩ | ⟨post1, _, hatt⟩
          · exact absurd hc (hnot _)
          · exact ⟨pre, c, post1, e, hatt, by simpa using herr⟩
    · intro c hc
      simp only [List.mem_cons, List.mem_append, List.not_mem_nil, or_false] at hc
      rcases hc with hc | hc | hc
      · exact Or.inl hc
      · exact Or.inr (Or.inl (hsub c hc))
      · exact Or.inr (Or.inr hc)
    · intro f s hc
      simp only [List.mem_cons, List.mem_append, List.not_mem_nil, reduceCtorEq,
        false_or, or_false] at hc
      exact orchestratorCalls_not_write w h _ (hsub _ hc) f s rfl
    · cases r with
      | some e =>
        simp [main, Proc.bind, hr, fmt.Println, Proc.call_, String.intercalate,
          String.intercalate.go]
      | none => simp [main, Proc.bind, hr, Proc.pure]

/-- Witnesses C9 in the world where every call succeeds and in the world where
the child cannot be run: no error and no line in the first, an error and one line
on standard output in the second. -/
theorem run_error_iff_step_failed_witness :
    (runInNewUserNamespaceWithNewFs okWorld []).1 = Outcome.ret none ∧
    main okWorld [] =
      (Outcome.ret (),
        Call.TempDir "" "new_root" :: (orchestratorCalls okWorld [] ++
          [Call.RemoveAll "/tmp/new_root1"])) ∧
    (runInNewUserNamespaceWithNewFs childFailsWorld []).1 =
      Outcome.ret
        (some "failed to run command in new user namespace with new filesystem: exit status 1") ∧
    main childFailsWorld [] =
      (Outcome.ret (),
        Call.TempDir "" "new_root" :: (orchestratorCalls childFailsWorld [] ++
          [Call.RemoveAll "/tmp/new_root1",
           Call.Write os.File.Stdout
             ("Error: failed to run command in new user namespace with new filesystem: " ++
               "exit status 1\n")])) := by
  obtain ⟨r1, s1, hrun1, hnone1, hs1, _, _, _, _, hmain1⟩ :=
    run_error_iff_step_failed okWorld []
  have h1 : r1 = none := hnone1.2 (by decide)
  subst h1
  refine ⟨by rw [hrun1], ?_, by decide, by decide⟩
  rw [hmain1, hs1]
  decide

/-- C3: when the five directories were created and the copy of `/bin/busybox`
fails, `createMinimalRootFs` returns the copy error right after that call, and
`runInNewUserNamespaceWithNewFs` returns the same error after only removing the
temporary directory: the working directory is not copied and no child is run.
In general, after a call of `runInNewUserNamespaceWithNewFs` that failed, the only
call that can follow is the removal of the temporary directory. -/
theorem setup_failure_stops (w : World) (h : List Call) :
    (∀ newRoot e, w.allOk h (mkdirCalls newRoot) = true →
      w.err (h ++ mkdirCalls newRoot) (busyboxCopy newRoot) = some e →
      createMinimalRootFs newRoot w h =
        (Outcome.ret (some ("failed to copy /bin/busybox to " ++
            filepath.Join [newRoot, "bin/busybox"] ++ ": " ++ e)),
          h ++ mkdirCalls newRoot ++ [busyboxCopy newRoot])) ∧
    (∀ e, w.err h (Call.TempDir "" "new_root") = none →
      w.allOk (h ++ [Call.TempDir "" "new_root"]) (mkdirCalls (w.tempName h)) = true →
      w.err (h ++ [Call.TempDir "" "new_root"] ++ mkdirCalls (w.tempName h))
        (busyboxCopy (w.tempName h)) = some e →
      runInNewUserNamespaceWithNewFs w h =
        (Outcome.ret (some ("failed to copy /bin/busybox to " ++
            filepath.Join [w.tempName h, "bin/busybox"] ++ ": " ++ e)),
          h ++ [Call.TempDir "" "new_root"] ++ mkdirCalls (w.tempName h) ++
            [busyboxCopy (w.tempName h), Call.RemoveAll (w.tempName h)])) ∧
    (∀ pre c post e, (runInNewUserNamespaceWithNewFs w h).2 = h ++ pre ++ c :: post →
      w.err (h ++ pre) c = some e → ∀ later ∈ post, later = Call.RemoveAll (w.tempName h)) := by
  refine ⟨fun newRoot e hok hb => createMinimalRootFs_busybox_failed newRoot w h e hok hb, ?_, ?_⟩
  · intro e ht hok hb
    have hc := createMinimalRootFs_busybox_failed (w.tempName h) w _ e hok hb
    simp [runInNewUserNamespaceWithNewFs, Proc.bind, ioutil.TempDir, ht, Proc.withDefer, hc,
      Proc.pure, os.RemoveAll, Proc.call_]
  · intro pre c post e htrace herr later hlater
    cases ht : w.err h (Call.TempDir "" "new_root") with
    | some e1 =>
      rw [run_tempDir_failed w h e1 ht] at htrace
      have heq : [Call.TempDir "" "new_root"] = pre ++ c :: post := by
        simpa [List.append_assoc] using htrace
      cases pre with
      | nil =>
        simp only [List.nil_append, List.cons.injEq] at heq
        rw [← heq.2] at hlater
        simp at hlater
      | cons b pre => simp at heq
    | none =>
      obtain ⟨r, hr, _, _⟩ := run_tempDir_ok w h ht
      rw [hr] at htrace
      have heq : Call.TempDir "" "new_root" ::
          (w.attempt (h ++ [Call.TempDir "" "new_root"]) (orchestratorCalls w h) ++
            [Call.RemoveAll (w.tempName h)]) = pre ++ c :: post := by
        simpa [List.append_assoc] using htrace
      cases pre with
      | nil =>
        simp only [List.nil_append, List.cons.injEq] at heq
        rw [← heq.1] at herr
        simp [ht] at herr
      | cons b pre =>
        simp only [List.cons_append, List.cons.injEq] at heq
        obtain ⟨rfl, heq⟩ := heq
        rcases split_concat _ _ _ _ _ heq with ⟨hp, _, _⟩ | ⟨post1, hp, hatt⟩
        · rw [hp] at hlater
          simp at hlater
        · have hnil := World.attempt_failure_last w _ _ pre c post1 e hatt (by simpa using herr)
          rw [hp, hnil] at hlater
          simpa using hlater

/-- Witnesses C3 in the world where `/bin/busybox` is absent. -/
theorem setup_failure_stops_witness :
    runInNewUserNamespaceWithNewFs busyboxAbsentWorld [] =
      (Outcome.ret (some ("failed to copy /bin/busybox to " ++
          filepath.Join ["/tmp/new_root1", "bin/busybox"] ++ ": " ++ "exit status 1")),
        [] ++ [Call.TempDir "" "new_root"] ++ mkdirCalls "/tmp/new_root1" ++
          [busyboxCopy "/tmp/new_root1", Call.RemoveAll "/tmp/new_root1"]) :=
  (setup_failure_stops busyboxAbsentWorld []).2.1 "exit status 1" rfl rfl rfl

/-- C8: `createMinimalRootFs newRoot` succeeds exactly when each of its seven
calls, issued in order, succeeds, and a successful run has made exactly these
calls: the five directories `bin`, `cwd`, `proc`, `sys`, `dev` under `newRoot` with
mode 0755, then `cp /bin/busybox <newRoot>/bin/busybox`, then
`cp -r . <newRoot>/cwd`.  The directories created are the five fixed names joined
to `newRoot`, and every successful run, in any world, makes the same calls. -/
theorem createMinimalRootFs_success (newRoot : String) (w : World) (h : List Call) :
    ((createMinimalRootFs newRoot w h).1 = Outcome.ret none ↔
      w.allOk h (setupCalls newRoot) = true) ∧
    ((createMinimalRootFs newRoot w h).1 = Outcome.ret none →
      (createMinimalRootFs newRoot w h).2 = h ++
        [Call.MkdirAll (filepath.Join [newRoot, "bin"]) 0o755,
         Call.MkdirAll (filepath.Join [newRoot, "cwd"]) 0o755,
         Call.MkdirAll (filepath.Join [newRoot, "proc"]) 0o755,
         Call.MkdirAll (filepath.Join [newRoot, "sys"]) 0o755,
         Call.MkdirAll (filepath.Join [newRoot, "dev"]) 0o755,
         Call.Run (exec.Command "cp" ["/bin/busybox", filepath.Join [newRoot, "bin/busybox"]]),
         Call.Run (exec.Command "cp" ["-r", ".", filepath.Join [newRoot, "cwd"]])]) ∧
    (setupCalls newRoot).filterMap Call.mkdirPath =
      ["bin", "cwd", "proc", "sys", "dev"].map (fun dir => filepath.Join [newRoot, dir]) ∧
    (∀ (w2 : World) (h2 : List Call),
      (createMinimalRootFs newRoot w h).1 = Outcome.ret none →
      (createMinimalRootFs newRoot w2 h2).1 = Outcome.ret none →
      ∃ calls, (createMinimalRootFs newRoot w h).2 = h ++ calls ∧
        (createMinimalRootFs newRoot w2 h2).2 = h2 ++ calls) := by
  refine ⟨(createMinimalRootFs_ok_iff newRoot w h).1,
    fun hs => (createMinimalRootFs_ok_iff newRoot w h).2 hs, rfl, ?_⟩
  intro w2 h2 hs hs2
  exact ⟨setupCalls newRoot, (createMinimalRootFs_ok_iff newRoot w h).2 hs,
    (createMinimalRootFs_ok_iff newRoot w2 h2).2 hs2⟩

/-- Witnesses C8 in the world where every call succeeds, for `/tmp/new_root1`. -/
theorem createMinimalRootFs_success_witness :
    (createMinimalRootFs "/tmp/new_root1" okWorld []).2 =
      [Call.MkdirAll "/tmp/new_root1/bin" 0o755,
       Call.MkdirAll "/tmp/new_root1/cwd" 0o755,
       Call.MkdirAll "/tmp/new_root1/proc" 0o755,
       Call.MkdirAll "/tmp/new_root1/sys" 0o755,
       Call.MkdirAll "/tmp/new_root1/dev" 0o755,
       Call.Run (exec.Command "cp" ["/bin/busybox", "/tmp/new_root1/bin/busybox"]),
       Call.Run (exec.Command "cp" ["-r", ".", "/tmp/new_root1/cwd"])] :=
  (createMinimalRootFs_success "/tmp/new_root1" okWorld []).2.1 rfl

/-- C7: when the temporary directory and the setup succeed, the next call runs
the child under the name `bind_mount_and_run` with exactly one UID mapping and one
GID mapping, each from container id 0 with size 1 to the effective user
(respectively group) id the world reports at that moment; and every command the
orchestrator runs under that name carries exactly these mappings. -/
theorem child_id_mappings (w : World) (h : List Call) :
    (w.err h (Call.TempDir "" "new_root") = none →
      w.allOk (h ++ [Call.TempDir "" "new_root"]) (setupCalls (w.tempName h)) = true →
      ∃ cmd post,
        (runInNewUserNamespaceWithNewFs w h).2 =
          h ++ [Call.TempDir "" "new_root"] ++ setupCalls (w.tempName h) ++
            Call.Run cmd :: post ∧
        cmd.Path = "/proc/self/exe" ∧ cmd.Args = ["bind_mount_and_run"] ∧
        cmd.SysProcAttr = some
          { Cloneflags := syscall.CLONE_NEWUSER ||| syscall.CLONE_NEWNS ||| syscall.CLONE_NEWPID
            UidMappings :=
              [{ ContainerID := 0
                 HostID := w.Geteuid (h ++ [Call.TempDir "" "new_root"] ++
                   setupCalls (w.tempName h))
                 Size := 1 }]
            GidMappings :=
              [{ ContainerID := 0
                 HostID := w.Getegid (h ++ [Call.TempDir "" "new_root"] ++
                   setupCalls (w.tempName h))
                 Size := 1 }] }) ∧
    (∀ suffix cmd, (runInNewUserNamespaceWithNewFs w h).2 = h ++ suffix →
      Call.Run cmd ∈ suffix → cmd.Args = ["bind_mount_and_run"] →
      ∃ attr, cmd.SysProcAttr = some attr ∧
        attr.UidMappings =
          [{ ContainerID := 0
             HostID := w.Geteuid (h ++ [Call.TempDir "" "new_root"] ++
               setupCalls (w.tempName h))
             Size := 1 }] ∧
        attr.GidMappings =
          [{ ContainerID := 0
             HostID := w.Getegid (h ++ [Call.TempDir "" "new_root"] ++
               setupCalls (w.tempName h))
             Size := 1 }]) := by
  constructor
  · intro ht hok
    obtain ⟨r, hr⟩ := run_reaches_spawn w h ht hok
    refine ⟨_, [Call.RemoveAll (w.tempName h)], by rw [hr]; rfl, rfl, rfl, ?_⟩
    simp [runInNewUserNamespaceWithNewFs.cmd]
  · intro suffix cmd htrace hmem hargs
    cases ht : w.err h (Call.TempDir "" "new_root") with
    | some e =>
      rw [run_tempDir_failed w h e ht] at htrace
      have hsuf : suffix = [Call.TempDir "" "new_root"] := by simpa using htrace.symm
      rw [hsuf] at hmem
      simp at hmem
    | none =>
      obtain ⟨r, hr, _, _⟩ := run_tempDir_ok w h ht
      rw [hr] at htrace
      have hsuf : suffix = Call.TempDir "" "new_root" ::
          (w.attempt (h ++ [Call.TempDir "" "new_root"]) (orchestratorCalls w h) ++
            [Call.RemoveAll (w.tempName h)]) := by simpa using htrace.symm
      rw [hsuf] at hmem
      simp only [List.mem_cons, List.mem_append, List.not_mem_nil, reduceCtorEq, false_or,
        or_false] at hmem
      have hin := World.attempt_subset w _ _ _ hmem
      simp only [orchestratorCalls, List.mem_append, List.mem_singleton] at hin
      rcases hin with hin | hin
      · have hcp := setupCalls_not_spawn _ _ hin
        rw [hargs] at hcp
        exact absurd hcp (by decide)
      · simp only [spawnCall, Call.Run.injEq] at hin
        rw [hin]
        exact ⟨_, rfl, by simp [runInNewUserNamespaceWithNewFs.cmd],
          by simp [runInNewUserNamespaceWithNewFs.cmd]⟩

/-- Witnesses C7 in the world where every call succeeds and the effective user
and group ids are 1000. -/
theorem child_id_mappings_witness :
    ∃ cmd post,
      (runInNewUserNamespaceWithNewFs okWorld []).2 =
        [] ++ [Call.TempDir "" "new_root"] ++ setupCalls "/tmp/new_root1" ++
          Call.Run cmd :: post ∧
      cmd.Path = "/proc/self/exe" ∧ cmd.Args = ["bind_mount_and_run"] ∧
      cmd.SysProcAttr = some
        { Cloneflags := syscall.CLONE_NEWUSER ||| syscall.CLONE_NEWNS ||| syscall.CLONE_NEWPID
          UidMappings := [{ ContainerID := 0, HostID := 1000, Size := 1 }]
          GidMappings := [{ ContainerID := 0, HostID := 1000, Size := 1 }] } :=
  (child_id_mappings okWorld []).1 rfl rfl

/-- C2, as the code behaves: in an orchestrator process whose temporary directory
was created and whose root-filesystem setup fails with error `e`, the process
ends with exit status 0 after the setup calls made so far, the removal of the
temporary directory, and one line `Error: e` on standard output; nothing is
written to the error stream. -/
theorem setup_failure_reported (w : World) (e : String)
    (hname : w.Args0 ≠ "bind_mount_and_run")
    (ht : w.err [] (Call.TempDir "" "new_root") = none)
    (hfail : (createMinimalRootFs (w.tempName []) w [Call.TempDir "" "new_root"]).1 =
      Outcome.ret (some e)) :
    ∃ mid,
      process w =
        (0, Call.TempDir "" "new_root" ::
          (mid ++ [Call.RemoveAll (w.tempName []),
            Call.Write os.File.Stdout ("Error: " ++ e ++ "\n")])) ∧
      (∀ c ∈ mid, c ∈ setupCalls (w.tempName [])) ∧
      ∀ s, Call.Write os.File.Stderr s ∉ (process w).2 := by
  obtain ⟨r, hr, _, hsame⟩ := run_tempDir_ok w [] ht
  have hre : r = some e := hsame e hfail
  subst hre
  have hno : w.allOk ([] ++ [Call.TempDir "" "new_root"]) (setupCalls (w.tempName [])) = false := by
    cases hb : w.allOk ([] ++ [Call.TempDir "" "new_root"]) (setupCalls (w.tempName [])) with
    | false => rfl
    | true =>
      have := (createMinimalRootFs_ok_iff (w.tempName []) w
        ([] ++ [Call.TempDir "" "new_root"])).1.2 hb
      rw [List.nil_append, hfail] at this
      simp at this
  have hatt : w.attempt ([] ++ [Call.TempDir "" "new_root"]) (orchestratorCalls w []) =
      w.attempt ([] ++ [Call.TempDir "" "new_root"]) (setupCalls (w.tempName [])) := by
    unfold orchestratorCalls
    rw [World.attempt_append_of_not_allOk _ _ _ _ hno]
  rw [hatt] at hr
  have hproc : process w =
      (0, Call.TempDir "" "new_root" ::
        (w.attempt ([] ++ [Call.TempDir "" "new_root"]) (setupCalls (w.tempName [])) ++
          [Call.RemoveAll (w.tempName []),
            Call.Write os.File.Stdout ("Error: " ++ e ++ "\n")])) := by
    simp [process, Proc.bind, init_not_reexec w [] hname, main, hr, fmt.Println, Proc.call_,
      String.intercalate, String.intercalate.go]
  refine ⟨_, hproc, fun c hc => World.attempt_subset w _ _ _ hc, ?_⟩
  intro s hs
  rw [hproc] at hs
  simp only [List.mem_cons, List.mem_append, List.not_mem_nil, reduceCtorEq, false_or,
    or_false, Call.Write.injEq, false_and] at hs
  have hin := World.attempt_subset w _ _ _ hs
  simp [setupCalls, mkdirCalls, busyboxCopy, cwdCopy] at hin

/-- Witnesses the corrected C2 in the world where the working directory is
unreadable. -/
theorem setup_failure_reported_witness :
    ∃ mid,
      process cwdUnreadableWorld =
        (0, Call.TempDir "" "new_root" ::
          (mid ++ [Call.RemoveAll "/tmp/new_root1",
            Call.Write os.File.Stdout
              ("Error: " ++ "failed to copy current directory to new root: exit status 1" ++
                "\n")])) ∧
      (∀ c ∈ mid, c ∈ setupCalls "/tmp/new_root1") ∧
      ∀ s, Call.Write os.File.Stderr s ∉ (process cwdUnreadableWorld).2 :=
  setup_failure_reported cwdUnreadableWorld
    "failed to copy current directory to new root: exit status 1" (by decide) rfl rfl

/-- Counterexample to C2 as stated: with an unreadable working directory the
setup fails, yet the process ends with exit status 0, not 1, and its only message
goes to standard output, not to the error stream. -/
theorem exit_status_one_counterexample :
    (createMinimalRootFs "/tmp/new_root1" cwdUnreadableWorld [Call.TempDir "" "new_root"]).1 =
        Outcome.ret (some "failed to copy current directory to new root: exit status 1") ∧
      process cwdUnreadableWorld =
        (0,
          [Call.TempDir "" "new_root",
           Call.MkdirAll "/tmp/new_root1/bin" 0o755,
           Call.MkdirAll "/tmp/new_root1/cwd" 0o755,
           Call.MkdirAll "/tmp/new_root1/proc" 0o755,
           Call.MkdirAll "/tmp/new_root1/sys" 0o755,
           Call.MkdirAll "/tmp/new_root1/dev" 0o755,
           Call.Run (exec.Command "cp" ["/bin/busybox", "/tmp/new_root1/bin/busybox"]),
           Call.Run (exec.Command "cp" ["-r", ".", "/tmp/new_root1/cwd"]),
           Call.RemoveAll "/tmp/new_root1",
           Call.Write os.File.Stdout
             "Error: failed to copy current directory to new root: exit status 1\n"]) ∧
      ¬ ((process cwdUnreadableWorld).1 = 1 ∧
        ∃ s, Call.Write os.File.Stderr s ∈ (process cwdUnreadableWorld).2) := by
  have hp : process cwdUnreadableWorld =
        (0,
          [Call.TempDir "" "new_root",
           Call.MkdirAll "/tmp/new_root1/bin" 0o755,
           Call.MkdirAll "/tmp/new_root1/cwd" 0o755,
           Call.MkdirAll "/tmp/new_root1/proc" 0o755,
           Call.MkdirAll "/tmp/new_root1/sys" 0o755,
           Call.MkdirAll "/tmp/new_root1/dev" 0o755,
           Call.Run (exec.Command "cp" ["/bin/busybox", "/tmp/new_root1/bin/busybox"]),
           Call.Run (exec.Command "cp" ["-r", ".", "/tmp/new_root1/cwd"]),
           Call.RemoveAll "/tmp/new_root1",
           Call.Write os.File.Stdout
             "Error: failed to copy current directory to new root: exit status 1\n"]) := by
    decide
  refine ⟨by decide, hp, ?_⟩
  rw [hp]
  simp

/-! ## Properties of the re-execution and of the entrant -/

/-- C4: `bindMountAndRun` never returns: it always ends in an exit; `init` exits
with status 0 when `reexec.Init` reports that an initializer ran; and in a process
started under the name `bind_mount_and_run`, `init` ends the process with the exit
status and the calls of `bindMountAndRun` alone, whatever code would follow it:
only the four entrant steps and writes to the error stream occur, and `main` is
never reached. -/
theorem reexec_runs_only_entrant (w : World) (h : List Call) :
    (∃ code calls, bindMountAndRun w h = (Outcome.exit code, h ++ calls)) ∧
    init.afterInit true w h = (Outcome.exit 0, h) ∧
    (w.Args0 = "bind_mount_and_run" →
      ∃ code calls,
        bindMountAndRun w h = (Outcome.exit code, h ++ calls) ∧
        init w h = (Outcome.exit code, h ++ calls) ∧
        (∀ k : Proc Unit, Proc.bind init (fun _ => k) w h = (Outcome.exit code, h ++ calls)) ∧
        (∀ c ∈ calls, c ∈ entrantCalls (w.Getenv h "NEW_ROOT") ∨
          ∃ s, c = Call.Write os.File.Stderr s)) ∧
    (w.Args0 = "bind_mount_and_run" →
      ∃ code calls, bindMountAndRun w [] = (Outcome.exit code, calls) ∧
        process w = (code, calls)) := by
  refine ⟨?_, rfl, ?_, ?_⟩
  · obtain ⟨code, calls, hrun, _⟩ := entrant_calls w h
    exact ⟨code, calls, hrun⟩
  · intro hname
    obtain ⟨code, calls, hrun, hcalls⟩ := entrant_calls w h
    have hinit : init w h = (Outcome.exit code, h ++ calls) := by
      rw [init_reexec w h hname, hrun]
    refine ⟨code, calls, hrun, hinit, ?_, hcalls⟩
    intro k
    simp [Proc.bind, hinit]
  · intro hname
    obtain ⟨code, calls, hrun, _⟩ := entrant_calls w []
    have hinit : init w [] = (Outcome.exit code, [] ++ calls) := by
      rw [init_reexec w [] hname, hrun]
    refine ⟨code, calls, by simpa using hrun, ?_⟩
    simp [process, Proc.bind, hinit]

/-- Witnesses C4 in a child process where every call succeeds: the process makes
the four entrant calls and exits with status 0. -/
theorem reexec_runs_only_entrant_witness :
    ∃ code calls, bindMountAndRun entrantWorld [] = (Outcome.exit code, calls) ∧
      process entrantWorld = (code, calls) :=
  (reexec_runs_only_entrant entrantWorld []).2.2.2 rfl

/-- C5: `bindMountAndRun` mounts proc at the join of the new root and `proc`,
then switches the root to the new root, then changes to `/cwd`, then runs
`/bin/busybox sh`.  Each step is made only after the earlier ones succeeded; the
first step that fails is followed by one line with its error on the error stream
and exit status 1, and by nothing else; after four successes the exit status is 0,
and it is 0 only then. -/
theorem entrant_sequence (w : World) (h : List Call) :
    (∀ e, w.err h (Call.Mount "proc" (filepath.Join [w.Getenv h "NEW_ROOT", "proc"]) "proc" 0 "")
        = some e →
      bindMountAndRun w h =
        (Outcome.exit 1,
          h ++ [Call.Mount "proc" (filepath.Join [w.Getenv h "NEW_ROOT", "proc"]) "proc" 0 "",
            Call.Write os.File.Stderr ("error mounting /proc: " ++ e ++ "\n")])) ∧
    (∀ e, w.err h (Call.Mount "proc" (filepath.Join [w.Getenv h "NEW_ROOT", "proc"]) "proc" 0 "")
        = none →
      w.err (h ++ [Call.Mount "proc" (filepath.Join [w.Getenv h "NEW_ROOT", "proc"]) "proc" 0 ""])
        (Call.Chroot (w.Getenv h "NEW_ROOT")) = some e →
      bindMountAndRun w h =
        (Outcome.exit 1,
          h ++ [Call.Mount "proc" (filepath.Join [w.Getenv h "NEW_ROOT", "proc"]) "proc" 0 "",
            Call.Chroot (w.Getenv h "NEW_ROOT"),
            Call.Write os.File.Stderr ("error changing root: " ++ e ++ "\n")])) ∧
    (∀ e, w.err h (Call.Mount "proc" (filepath.Join [w.Getenv h "NEW_ROOT", "proc"]) "proc" 0 "")
        = none →
      w.err (h ++ [Call.Mount "proc" (filepath.Join [w.Getenv h "NEW_ROOT", "proc"]) "proc" 0 ""])
        (Call.Chroot (w.Getenv h "NEW_ROOT")) = none →
      w.err (h ++ [Call.Mount "proc" (filepath.Join [w.Getenv h "NEW_ROOT", "proc"]) "proc" 0 "",
          Call.Chroot (w.Getenv h "NEW_ROOT")])
        (Call.Chdir "/cwd") = some e →
      bindMountAndRun w h =
        (Outcome.exit 1,
          h ++ [Call.Mount "proc" (filepath.Join [w.Getenv h "NEW_ROOT", "proc"]) "proc" 0 "",
            Call.Chroot (w.Getenv h "NEW_ROOT"), Call.Chdir "/cwd",
            Call.Write os.File.Stderr ("error changing to /cwd: " ++ e ++ "\n")])) ∧
    (∀ e, w.err h (Call.Mount "proc" (filepath.Join [w.Getenv h "NEW_ROOT", "proc"]) "proc" 0 "")
        = none →
      w.err (h ++ [Call.Mount "proc" (filepath.Join [w.Getenv h "NEW_ROOT", "proc"]) "proc" 0 ""])
        (Call.Chroot (w.Getenv h "NEW_ROOT")) = none →
      w.err (h ++ [Call.Mount "proc" (filepath.Join [w.Getenv h "NEW_ROOT", "proc"]) "proc" 0 "",
          Call.Chroot (w.Getenv h "NEW_ROOT")])
        (Call.Chdir "/cwd") = none →
      w.err (h ++ [Call.Mount "proc" (filepath.Join [w.Getenv h "NEW_ROOT", "proc"]) "proc" 0 "",
          Call.Chroot (w.Getenv h "NEW_ROOT"), Call.Chdir "/cwd"])
        (Call.Run bindMountAndRun.cmd) = some e →
      bindMountAndRun w h =
        (Outcome.exit 1,
          h ++ [Call.Mount "proc" (filepath.Join [w.Getenv h "NEW_ROOT", "proc"]) "proc" 0 "",
            Call.Chroot (w.Getenv h "NEW_ROOT"), Call.Chdir "/cwd",
            Call.Run bindMountAndRun.cmd,
            Call.Write os.File.Stderr
              ("failed to run command in new user namespace with new filesystem: " ++ e ++
                "\n")])) ∧
    (w.allOk h (entrantCalls (w.Getenv h "NEW_ROOT")) = true →
      bindMountAndRun w h =
        (Outcome.exit 0,
          h ++ [Call.Mount "proc" (filepath.Join [w.Getenv h "NEW_ROOT", "proc"]) "proc" 0 "",
            Call.Chroot (w.Getenv h "NEW_ROOT"), Call.Chdir "/cwd",
            Call.Run bindMountAndRun.cmd])) ∧
    ((bindMountAndRun w h).1 = Outcome.exit 0 ↔
      w.allOk h (entrantCalls (w.Getenv h "NEW_ROOT")) = true) ∧
    ((bindMountAndRun w h).1 = Outcome.exit 0 ∨ (bindMountAndRun w h).1 = Outcome.exit 1) ∧
    bindMountAndRun.cmd.Path = "/bin/busybox" ∧
    bindMountAndRun.cmd.Args = ["/bin/busybox", "sh"] := by
  refine ⟨fun e h1 => entrant_mount_failed w h e h1,
    fun e h1 h2 => entrant_chroot_failed w h e h1 h2,
    fun e h1 h2 h3 => entrant_chdir_failed w h e h1 h2 h3,
    fun e h1 h2 h3 h4 => entrant_shell_failed w h e h1 h2 h3 h4, ?_, ?_, ?_, rfl, rfl⟩
  · intro hok
    rcases entrant_exits w h with ⟨_, hrun⟩ | ⟨hno, _⟩
    · rw [hrun]; rfl
    · rw [hok] at hno
      exact absurd hno (by simp)
  · rcases entrant_exits w h with ⟨hok, hrun⟩ | ⟨hno, s, hrun⟩
    · simp [hrun, hok]
    · simp [hrun, hno]
  · rcases entrant_exits w h with ⟨_, hrun⟩ | ⟨_, s, hrun⟩
    · exact Or.inl (by rw [hrun])
    · exact Or.inr (by rw [hrun])

/-- Witnesses C5 in a child process whose switch of the root is refused: mount,
chroot, one line on the error stream, exit status 1. -/
theorem entrant_sequence_witness :
    bindMountAndRun chrootRefusedWorld [] =
      (Outcome.exit 1,
        [] ++ [Call.Mount "proc" (filepath.Join ["/tmp/new_root1", "proc"]) "proc" 0 "",
          Call.Chroot "/tmp/new_root1",
          Call.Write os.File.Stderr ("error changing root: " ++ "operation not permitted" ++
            "\n")]) :=
  (entrant_sequence chrootRefusedWorld []).2.1 "operation not permitted" rfl rfl

/-- C6: every command the entrant runs is the shell command with the environment
`["PATH=/bin"]`, whatever the world, so in two runs in any two worlds the shells
get the same environment; and the shell is run whenever the three earlier steps
succeed. -/
theorem shell_env_fixed (w1 w2 : World) (h1 h2 : List Call) :
    ∃ calls1 calls2,
      (bindMountAndRun w1 h1).2 = h1 ++ calls1 ∧
      (bindMountAndRun w2 h2).2 = h2 ++ calls2 ∧
      (∀ cmd, Call.Run cmd ∈ calls1 → cmd.Env = some ["PATH=/bin"]) ∧
      (∀ cmd1 cmd2, Call.Run cmd1 ∈ calls1 → Call.Run cmd2 ∈ calls2 → cmd1.Env = cmd2.Env) ∧
      (w1.allOk h1 ((entrantCalls (w1.Getenv h1 "NEW_ROOT")).take 3) = true →
        ∃ cmd, Call.Run cmd ∈ calls1) := by
  obtain ⟨code1, calls1, hrun1, hcalls1⟩ := entrant_calls w1 h1
  obtain ⟨code2, calls2, hrun2, hcalls2⟩ := entrant_calls w2 h2
  have henv : ∀ (newRoot : String) (calls : List Call),
      (∀ c ∈ calls, c ∈ entrantCalls newRoot ∨ ∃ s, c = Call.Write os.File.Stderr s) →
      ∀ cmd, Call.Run cmd ∈ calls → cmd.Env = some ["PATH=/bin"] := by
    intro newRoot calls hcalls cmd hmem
    rcases hcalls _ hmem with hin | ⟨s, hs⟩
    · simp only [entrantCalls, List.mem_cons, reduceCtorEq, Call.Run.injEq, List.not_mem_nil,
        or_false, false_or] at hin
      rw [hin]
      rfl
    · exact absurd hs (by simp)
  refine ⟨calls1, calls2, by rw [hrun1], by rw [hrun2], henv _ _ hcalls1, ?_, ?_⟩
  · intro cmd1 cmd2 hm1 hm2
    rw [henv _ _ hcalls1 cmd1 hm1, henv _ _ hcalls2 cmd2 hm2]
  · intro hok
    simp only [entrantCalls, List.take, World.allOk, Bool.and_eq_true,
      Option.isNone_iff_eq_none, List.append_assoc, List.cons_append, List.nil_append,
      and_true] at hok
    obtain ⟨e1, e2, e3⟩ := hok
    refine ⟨bindMountAndRun.cmd, ?_⟩
    cases e4 : w1.err
        (h1 ++ [Call.Mount "proc" (filepath.Join [w1.Getenv h1 "NEW_ROOT", "proc"]) "proc" 0 "",
          Call.Chroot (w1.Getenv h1 "NEW_ROOT"), Call.Chdir "/cwd"])
        (Call.Run bindMountAndRun.cmd) with
    | some e =>
      rw [entrant_shell_failed w1 h1 e e1 e2 e3 e4] at hrun1
      simp only [Prod.mk.injEq, List.append_cancel_left_eq] at hrun1
      rw [← hrun1.2]
      simp
    | none =>
      rw [entrant_all_ok w1 h1 e1 e2 e3 e4] at hrun1
      simp only [Prod.mk.injEq, List.append_cancel_left_eq] at hrun1
      rw [← hrun1.2]
      simp

/-- Witnesses C6 with two child processes, one whose calls all succeed and one
whose switch of the root is refused. -/
theorem shell_env_fixed_witness :
    ∃ calls1 calls2,
      (bindMountAndRun entrantWorld []).2 = [] ++ calls1 ∧
      (bindMountAndRun chrootRefusedWorld []).2 = [] ++ calls2 ∧
      (∀ cmd, Call.Run cmd ∈ calls1 → cmd.Env = some ["PATH=/bin"]) ∧
      (∀ cmd1 cmd2, Call.Run cmd1 ∈ calls1 → Call.Run cmd2 ∈ calls2 → cmd1.Env = cmd2.Env) ∧
      (entrantWorld.allOk [] ((entrantCalls (entrantWorld.Getenv [] "NEW_ROOT")).take 3) = true →
        ∃ cmd, Call.Run cmd ∈ calls1) :=
  shell_env_fixed entrantWorld chrootRefusedWorld [] []

/-- C10: when the temporary directory and the setup succeed, the child is run with
the environment the world reports followed by the one entry `NEW_ROOT=` plus the
temporary directory, as its last entry; a last-entry-wins lookup of `NEW_ROOT` in
that environment gives the temporary directory, also when the inherited
environment defines `NEW_ROOT` already; and an entrant whose `os.Getenv` answers
with that lookup mounts proc at the join of the temporary directory and `proc` and
then switches the root to the temporary directory. -/
theorem new_root_round_trip (w : World) (h : List Call) (child : World) (hc : List Call)
    (ht : w.err h (Call.TempDir "" "new_root") = none)
    (hok : w.allOk (h ++ [Call.TempDir "" "new_root"]) (setupCalls (w.tempName h)) = true) :
    ∃ cmd post,
      (runInNewUserNamespaceWithNewFs w h).2 =
        h ++ [Call.TempDir "" "new_root"] ++ setupCalls (w.tempName h) ++ Call.Run cmd :: post ∧
      cmd.Env = some
        (w.Environ (h ++ [Call.TempDir "" "new_root"] ++ setupCalls (w.tempName h)) ++
          ["NEW_ROOT=" ++ w.tempName h]) ∧
      (cmd.Env.getD []).getLast? = some ("NEW_ROOT=" ++ w.tempName h) ∧
      lookupEnvLast (cmd.Env.getD []) "NEW_ROOT" = some (w.tempName h) ∧
      (child.Getenv hc "NEW_ROOT" = (lookupEnvLast (cmd.Env.getD []) "NEW_ROOT").getD "" →
        ∃ rest,
          (bindMountAndRun child hc).2 =
            hc ++ Call.Mount "proc" (filepath.Join [w.tempName h, "proc"]) "proc" 0 "" :: rest ∧
          (child.err hc (Call.Mount "proc" (filepath.Join [w.tempName h, "proc"]) "proc" 0 "")
              = none →
            ∃ rest2, rest = Call.Chroot (w.tempName h) :: rest2)) := by
  obtain ⟨r, hr⟩ := run_reaches_spawn w h ht hok
  have henv : (runInNewUserNamespaceWithNewFs.cmd (w.tempName h)
      (w.Environ (h ++ Call.TempDir "" "new_root" :: setupCalls (w.tempName h)))
      (w.Geteuid (h ++ Call.TempDir "" "new_root" :: setupCalls (w.tempName h)))
      (w.Getegid (h ++ Call.TempDir "" "new_root" :: setupCalls (w.tempName h)))).Env =
      some (w.Environ (h ++ [Call.TempDir "" "new_root"] ++ setupCalls (w.tempName h)) ++
        ["NEW_ROOT=" ++ w.tempName h]) := by
    simp [runInNewUserNamespaceWithNewFs.cmd]
  refine ⟨_, [Call.RemoveAll (w.tempName h)], by rw [hr]; rfl, henv, ?_, ?_, ?_⟩
  · rw [henv]
    simp
  · rw [henv]
    exact lookupEnvLast_newRoot _ _
  · rw [henv]
    intro hget
    simp only [Option.getD_some, lookupEnvLast_newRoot] at hget
    have huse := entrant_uses_newRoot child hc
    rw [hget] at huse
    exact huse

/-- Witnesses C10: the orchestrator inherits `NEW_ROOT=/elsewhere`, creates
`/tmp/new_root1`, and the entrant that reads `/tmp/new_root1` mounts
`/tmp/new_root1/proc` and switches the root to `/tmp/new_root1`. -/
theorem new_root_round_trip_witness :
    ∃ cmd post,
      (runInNewUserNamespaceWithNewFs okWorld []).2 =
        [] ++ [Call.TempDir "" "new_root"] ++ setupCalls "/tmp/new_root1" ++
          Call.Run cmd :: post ∧
      cmd.Env = some (["HOME=/root", "NEW_ROOT=/elsewhere"] ++ ["NEW_ROOT=" ++ "/tmp/new_root1"]) ∧
      (cmd.Env.getD []).getLast? = some ("NEW_ROOT=" ++ "/tmp/new_root1") ∧
      lookupEnvLast (cmd.Env.getD []) "NEW_ROOT" = some "/tmp/new_root1" ∧
      (entrantWorld.Getenv [] "NEW_ROOT" =
          (lookupEnvLast (cmd.Env.getD []) "NEW_ROOT").getD "" →
        ∃ rest,
          (bindMountAndRun entrantWorld []).2 =
            [] ++ Call.Mount "proc" (filepath.Join ["/tmp/new_root1", "proc"]) "proc" 0 "" ::
              rest ∧
          (entrantWorld.err []
              (Call.Mount "proc" (filepath.Join ["/tmp/new_root1", "proc"]) "proc" 0 "") = none →
            ∃ rest2, rest = Call.Chroot "/tmp/new_root1" :: rest2)) :=
  new_root_round_trip okWorld [] entrantWorld [] rfl rfl

end Pivroot
